import Mathlib

/-!
# Verification of the Space Budget Tracker monthly ledger

A shallow embedding of the monthly budget ledger of `src/App.js` and the
analytics engine of `src/Insights.js`.  Currency amounts are modelled as
rationals, JS strings as Lean strings compared by code points, JS objects
keyed by strings as association lists, and `Date.now()` as an explicit
`now : Nat` parameter.  Form inputs of `<input type="number">` elements are
modelled as `Option ℚ` (`none` is the empty string, `some q` a numeral
string with value `q`); JS truthiness of such a string is `Option.isSome`.
-/

namespace SpaceBudget

/-! ## JS string comparison (`<` on strings, `Array.prototype.sort`)

JavaScript compares strings lexicographically by code units; for the ASCII
month keys `YYYY-MM` used by the app this is lexicographic comparison of
code points. -/

/-- Lexicographic strict comparison of char lists by code point. -/
def lexLt : List Char → List Char → Bool
  | [], [] => false
  | [], _ :: _ => true
  | _ :: _, [] => false
  | a :: as, b :: bs =>
    if a.toNat < b.toNat then true
    else if b.toNat < a.toNat then false
    else lexLt as bs

/-- JS `a < b` on strings. -/
def strLt (a b : String) : Bool := lexLt a.data b.data

/-- JS `a <= b` on strings (total: `!(b < a)`). -/
def strLe (a b : String) : Bool := !(strLt b a)

/-- Insert an element into a list sorted by `le`. -/
def insertSorted {α : Type} (le : α → α → Bool) (a : α) : List α → List α
  | [] => [a]
  | b :: bs => if le a b then a :: b :: bs else b :: insertSorted le a bs

/-- Insertion sort by a boolean comparison, modelling `Array.prototype.sort`
with a total comparator. -/
def sortBy {α : Type} (le : α → α → Bool) : List α → List α
  | [] => []
  | a :: as => insertSorted le a (sortBy le as)

theorem mem_insertSorted {α : Type} (le : α → α → Bool) (a x : α) (l : List α) :
    x ∈ insertSorted le a l ↔ x = a ∨ x ∈ l := by
  induction l with
  | nil => simp [insertSorted]
  | cons b bs ih =>
    simp only [insertSorted]
    by_cases h : le a b = true
    · rw [if_pos h]
      simp
    · rw [if_neg h]
      simp only [List.mem_cons, ih]
      tauto

theorem perm_insertSorted {α : Type} (le : α → α → Bool) (a : α) (l : List α) :
    List.Perm (insertSorted le a l) (a :: l) := by
  induction l with
  | nil => simp [insertSorted]
  | cons b bs ih =>
    simp only [insertSorted]
    by_cases h : le a b = true
    · rw [if_pos h]
    · rw [if_neg h]
      exact List.Perm.trans (List.Perm.cons b ih) (List.Perm.swap a b bs)

theorem perm_sortBy {α : Type} (le : α → α → Bool) (l : List α) :
    List.Perm (sortBy le l) l := by
  induction l with
  | nil => simp [sortBy]
  | cons a as ih =>
    simp only [sortBy]
    exact List.Perm.trans (perm_insertSorted le a (sortBy le as)) (List.Perm.cons a ih)

theorem pairwise_insertSorted {α : Type} {le : α → α → Bool}
    (htot : ∀ a b, le a b = true ∨ le b a = true)
    (htrans : ∀ a b c, le a b = true → le b c = true → le a c = true)
    (a : α) {l : List α}
    (h : l.Pairwise (fun x y => le x y = true)) :
    (insertSorted le a l).Pairwise (fun x y => le x y = true) := by
  induction l with
  | nil => simp [insertSorted]
  | cons b bs ih =>
    rcases h with _ | ⟨hb, hbs⟩
    simp only [insertSorted]
    by_cases hab : le a b = true
    · rw [if_pos hab]
      refine List.Pairwise.cons ?_ (List.Pairwise.cons hb hbs)
      intro x hx
      rcases List.mem_cons.mp hx with hxa | hx
      · rw [hxa]
        exact hab
      · exact htrans a b x hab (hb x hx)
    · rw [if_neg hab]
      refine List.Pairwise.cons ?_ (ih hbs)
      intro x hx
      rcases (mem_insertSorted le a x bs).mp hx with hxa | hx
      · rw [hxa]
        rcases htot a b with h1 | h1
        · exact absurd h1 hab
        · exact h1
      · exact hb x hx

theorem pairwise_sortBy {α : Type} {le : α → α → Bool}
    (htot : ∀ a b, le a b = true ∨ le b a = true)
    (htrans : ∀ a b c, le a b = true → le b c = true → le a c = true)
    (l : List α) :
    (sortBy le l).Pairwise (fun x y => le x y = true) := by
  induction l with
  | nil => simp [sortBy]
  | cons a as ih => exact pairwise_insertSorted htot htrans a ih

/-! ## Data model (App.js state) -/

/-- An expense record (`{id, name, amount, category, isRecurring}`). -/
structure Expense where
  id : Nat
  name : String
  amount : ℚ
  category : String
  isRecurring : Bool
deriving DecidableEq

/-- A month record: `{income, incomeRecurring, expenses, categoryLimits}`.
`categoryLimits` is a JS object keyed by category id, modelled as an
association list in property-insertion order. -/
structure MonthData where
  income : ℚ
  incomeRecurring : Bool
  expenses : List Expense
  categoryLimits : List (String × ℚ)
deriving DecidableEq

/-- The default month record
`{ income: 0, incomeRecurring: false, expenses: [], categoryLimits: {} }`. -/
def emptyMonth : MonthData :=
  { income := 0, incomeRecurring := false, expenses := [], categoryLimits := [] }

/-- `monthlyBudgets`: a JS object keyed by `YYYY-MM` month keys, modelled as
an association list in property-insertion order with unique keys. -/
abbrev Ledger := List (String × MonthData)

/-- Object property read `monthlyBudgets[key]` (`none` = `undefined`). -/
def lookupMonth : Ledger → String → Option MonthData
  | [], _ => none
  | kv :: rest, k => if kv.1 = k then some kv.2 else lookupMonth rest k

/-- Whether the object has the property (`key in monthlyBudgets`). -/
def hasKey : Ledger → String → Bool
  | [], _ => false
  | kv :: rest, k => decide (kv.1 = k) || hasKey rest k

/-- `monthlyBudgets[key] || emptyMonth`, the read used by
`getCurrentMonthData`. -/
def getMonthData (l : Ledger) (k : String) : MonthData :=
  (lookupMonth l k).getD emptyMonth

/-- The spread update `{...prev, [key]: v}`: an existing key keeps its
position and gets the new value, a new key is appended. -/
def upsertMonth (l : Ledger) (k : String) (v : MonthData) : Ledger :=
  if hasKey l k then
    l.map (fun kv => if kv.1 = k then (k, v) else kv)
  else l ++ [(k, v)]

/-- JS object property assignment `obj[cid] = v` on `categoryLimits`. -/
def setLimitEntry : List (String × ℚ) → String → ℚ → List (String × ℚ)
  | [], cid, v => [(cid, v)]
  | kv :: rest, cid, v =>
    if kv.1 = cid then (cid, v) :: rest else kv :: setLimitEntry rest cid v

/-- `limits[cid] || 0`: a missing limit reads as 0. -/
def lookupLimit : List (String × ℚ) → String → ℚ
  | [], _ => 0
  | kv :: rest, cid => if kv.1 = cid then kv.2 else lookupLimit rest cid

/-- The `newExpense` form state.  `amount` is the raw string of a numeric
input: `none` is the empty string and `some q` a numeral string of value
`q`; JS truthiness of the raw string is `Option.isSome`. -/
structure ExpenseForm where
  name : String
  amount : Option ℚ
  category : String
  isRecurring : Bool
deriving DecidableEq

/-- `editingExpenseData`: the temporary copy of an expense being edited,
with its `amount` field holding the raw input string. -/
structure EditingExpenseData where
  id : Nat
  name : String
  amount : Option ℚ
  category : String
  isRecurring : Bool
deriving DecidableEq

/-- The component state of `NESBudgetCalculator` that the ledger logic
touches.  `populatedMonths` models `populatedMonthsRef.current` and
`alertsShown` the session map of already-fired `"month-category"` alert
keys; both are process-lifetime state, never persisted. -/
structure AppState where
  monthlyBudgets : Ledger
  currentMonth : String
  newExpense : ExpenseForm
  populatedMonths : List String
  alertsShown : List String
  notificationsEnabled : Bool
deriving DecidableEq

/-- `getCurrentMonthData()`. -/
def getCurrentMonthData (s : AppState) : MonthData :=
  getMonthData s.monthlyBudgets s.currentMonth

/-- `setExpenses(newExpenses)`: write the current month's record with the
given expense list, preserving the other fields. -/
def setExpenses (s : AppState) (newExpenses : List Expense) : AppState :=
  let newData := { getCurrentMonthData s with expenses := newExpenses }
  { s with monthlyBudgets := upsertMonth s.monthlyBudgets s.currentMonth newData }

/-- `setIncome(value, isRecurring)`: when the `isRecurring` argument is
omitted (`none`) the existing recurring flag is preserved. -/
def setIncome (s : AppState) (value : ℚ) (isRecurring : Option Bool) : AppState :=
  let newData :=
    { getCurrentMonthData s with
      income := value,
      incomeRecurring :=
        match isRecurring with
        | some b => b
        | none => (getCurrentMonthData s).incomeRecurring }
  { s with monthlyBudgets := upsertMonth s.monthlyBudgets s.currentMonth newData }

/-- `setCategoryLimit(categoryId, limit)`: stores the limit when positive,
otherwise deletes the entry. -/
def setCategoryLimit (s : AppState) (categoryId : String) (limit : ℚ) : AppState :=
  let currentLimits := (getCurrentMonthData s).categoryLimits
  let newLimits :=
    if 0 < limit then setLimitEntry currentLimits categoryId limit
    else currentLimits.filter (fun kv => decide (kv.1 ≠ categoryId))
  let newData := { getCurrentMonthData s with categoryLimits := newLimits }
  { s with monthlyBudgets := upsertMonth s.monthlyBudgets s.currentMonth newData }

/-- `handleAddExpense()`: guarded by JS truthiness of the raw `name` and
`amount` strings; on success appends one expense with `id = Date.now()`,
`amount = parseFloat(raw)`, and resets the form. -/
def handleAddExpense (s : AppState) (now : Nat) : AppState :=
  match s.newExpense.amount with
  | none => s
  | some q =>
    if s.newExpense.name = "" then s
    else
      let s₂ := setExpenses s ((getCurrentMonthData s).expenses ++
        [{ id := now, name := s.newExpense.name, amount := q,
           category := s.newExpense.category,
           isRecurring := s.newExpense.isRecurring }])
      { s₂ with newExpense :=
          { name := "", amount := none, category := "food", isRecurring := false } }

/-- `handleDeleteExpense(id)`: filters the expense out; idempotent. -/
def handleDeleteExpense (s : AppState) (id : Nat) : AppState :=
  setExpenses s ((getCurrentMonthData s).expenses.filter (fun e => decide (e.id ≠ id)))

/-- `toggleExpenseRecurring(id)`. -/
def toggleExpenseRecurring (s : AppState) (id : Nat) : AppState :=
  setExpenses s ((getCurrentMonthData s).expenses.map (fun e =>
    if e.id = id then { e with isRecurring := !e.isRecurring } else e))

/-- `handleSaveEdit()`: guarded by JS truthiness of the edited name and raw
amount; replaces the expense whose id is `editingExpenseId` by the edited
data with `amount = parseFloat(raw)`. -/
def handleSaveEdit (s : AppState) (editingExpenseId : Nat)
    (d : EditingExpenseData) : AppState :=
  match d.amount with
  | none => s
  | some q =>
    if d.name = "" then s
    else setExpenses s ((getCurrentMonthData s).expenses.map (fun e =>
      if e.id = editingExpenseId then
        { id := d.id, name := d.name, amount := q,
          category := d.category, isRecurring := d.isRecurring }
      else e))

/-! ## Ledger frame lemmas -/

theorem lookupMonth_replace_ne (l : Ledger) (k k₂ : String) (v : MonthData)
    (h : k₂ ≠ k) :
    lookupMonth (l.map (fun kv => if kv.1 = k then (k, v) else kv)) k₂
      = lookupMonth l k₂ := by
  induction l with
  | nil => rfl
  | cons kv rest ih =>
    simp only [List.map_cons]
    by_cases hk : kv.1 = k
    · rw [if_pos hk]
      have h1 : ¬ ((k : String) = k₂) := fun hh => h hh.symm
      have h2 : ¬ (kv.1 = k₂) := by
        rw [hk]
        exact h1
      simp [lookupMonth, h1, h2, ih]
    · rw [if_neg hk]
      by_cases hk₂ : kv.1 = k₂
      · simp [lookupMonth, hk₂]
      · simp [lookupMonth, hk₂, ih]

theorem lookupMonth_append_ne (l : Ledger) (k k₂ : String) (v : MonthData)
    (h : k₂ ≠ k) : lookupMonth (l ++ [(k, v)]) k₂ = lookupMonth l k₂ := by
  induction l with
  | nil =>
    simp [lookupMonth]
    exact fun hh => h (Eq.symm hh)
  | cons kv rest ih =>
    by_cases hk₂ : kv.1 = k₂
    · simp [lookupMonth, hk₂]
    · simp only [List.cons_append]
      simp [lookupMonth, hk₂, ih]

theorem lookupMonth_upsertMonth_ne (l : Ledger) (k k₂ : String) (v : MonthData)
    (h : k₂ ≠ k) : lookupMonth (upsertMonth l k v) k₂ = lookupMonth l k₂ := by
  unfold upsertMonth
  by_cases hmem : hasKey l k = true
  · rw [if_pos hmem]
    exact lookupMonth_replace_ne l k k₂ v h
  · rw [if_neg hmem]
    exact lookupMonth_append_ne l k k₂ v h

theorem lookupMonth_replace_self (l : Ledger) (k : String) (v : MonthData)
    (hmem : hasKey l k = true) :
    lookupMonth (l.map (fun kv => if kv.1 = k then (k, v) else kv)) k = some v := by
  induction l with
  | nil => simp [hasKey] at hmem
  | cons kv rest ih =>
    simp only [List.map_cons]
    by_cases hk : kv.1 = k
    · rw [if_pos hk]
      simp [lookupMonth]
    · rw [if_neg hk]
      simp [lookupMonth, hk]
      apply ih
      simpa [hasKey, hk] using hmem

theorem lookupMonth_eq_none_of_not_hasKey (l : Ledger) (k : String)
    (hmem : ¬ hasKey l k = true) : lookupMonth l k = none := by
  induction l with
  | nil => rfl
  | cons kv rest ih =>
    by_cases hk : kv.1 = k
    · exact absurd (by simp [hasKey, hk]) hmem
    · simp [lookupMonth, hk]
      apply ih
      intro hrest
      exact hmem (by simp [hasKey, hrest])

theorem lookupMonth_upsertMonth_self (l : Ledger) (k : String) (v : MonthData) :
    lookupMonth (upsertMonth l k v) k = some v := by
  unfold upsertMonth
  by_cases hmem : hasKey l k = true
  · rw [if_pos hmem]
    exact lookupMonth_replace_self l k v hmem
  · rw [if_neg hmem]
    induction l with
    | nil => simp [lookupMonth]
    | cons kv rest ih =>
      by_cases hk : kv.1 = k
      · exact absurd (by simp [hasKey, hk]) hmem
      · simp only [List.cons_append]
        simp [lookupMonth, hk]
        apply ih
        intro hrest
        exact hmem (by simp [hasKey, hrest])

/-! ## Category registry

The static `categories` array of App.js.  Display names keep the emoji
prefix elided (presentation only); ids and colors are verbatim. -/

structure Category where
  id : String
  name : String
  color : String
deriving DecidableEq

def categories : List Category :=
  [ { id := "food", name := "Food", color := "#ff6b9d" },
    { id := "housing", name := "Housing", color := "#00e5ff" },
    { id := "transport", name := "Transport", color := "#ffd700" },
    { id := "entertainment", name := "Entertainment", color := "#00ff00" },
    { id := "utilities", name := "Utilities", color := "#ff6b00" },
    { id := "debt", name := "Debt", color := "#ff4444" },
    { id := "personal", name := "Personal Care & Recreation", color := "#ff69b4" },
    { id := "savings", name := "Savings", color := "#ffd700" },
    { id := "vacation", name := "Vacation Fund", color := "#00bfff" },
    { id := "other", name := "Other", color := "#c084fc" } ]

/-! ## Recurring propagation (the auto-populate effect of App.js) -/

/-- `Object.keys(monthlyBudgets).sort().reverse().find(m => m < currentMonth)`:
the most recent known month strictly before `cur`. -/
def findPreviousMonth (l : Ledger) (cur : String) : Option String :=
  ((sortBy strLe (l.map (fun kv => kv.1))).reverse).find? (fun m => strLt m cur)

/-- `.map((exp, index) => ({...exp, id: Date.now() + index}))` over the
filtered recurring expenses: fresh ids from the timestamp plus position. -/
def assignNewIds (now : Nat) : Nat → List Expense → List Expense
  | _, [] => []
  | i, e :: es => { e with id := now + i } :: assignNewIds now (i + 1) es

/-- The copy block of the auto-populate effect: builds the new month record
from the previous month's data and reports (`hasRecurringData`) whether any
recurring income or expense was copied. -/
def populateResult (prevData : MonthData) (now : Nat) : MonthData × Bool :=
  let copyIncome := prevData.incomeRecurring && decide (0 < prevData.income)
  let recurringExpenses := assignNewIds now 0 (prevData.expenses.filter (fun e => e.isRecurring))
  let newMonthData : MonthData :=
    { income := if copyIncome then prevData.income else 0,
      incomeRecurring := copyIncome,
      expenses := recurringExpenses,
      categoryLimits := prevData.categoryLimits }
  (newMonthData, copyIncome || !recurringExpenses.isEmpty)

/-- `populatedMonthsRef.current[currentMonth] = true`. -/
def markPopulated (s : AppState) : AppState :=
  { s with populatedMonths := s.currentMonth :: s.populatedMonths }

/-- The auto-populate effect of App.js (run once the deferred timer fires):
guard on the seen-set, find the most recent previous month, skip when the
current month already has an expense or positive income, otherwise copy the
recurring items when there are any; the month is marked as checked in every
path that runs. -/
def autoPopulate (s : AppState) (now : Nat) : AppState :=
  if s.currentMonth = "" ∨ s.currentMonth ∈ s.populatedMonths then s
  else
    match findPreviousMonth s.monthlyBudgets s.currentMonth with
    | none => markPopulated s
    | some previousMonth =>
      match lookupMonth s.monthlyBudgets previousMonth with
      | none => markPopulated s
      | some prevData =>
        let currentData := lookupMonth s.monthlyBudgets s.currentMonth
        let hasExpenses :=
          match currentData with
          | some d => !d.expenses.isEmpty
          | none => false
        let hasIncome :=
          match currentData with
          | some d => decide (0 < d.income)
          | none => false
        if hasExpenses || hasIncome then markPopulated s
        else
          let res := populateResult prevData now
          if res.2 then
            markPopulated
              { s with monthlyBudgets := upsertMonth s.monthlyBudgets s.currentMonth res.1 }
          else markPopulated s

/-! ## Analytics engine (Insights.js) -/

/-- Total of a month's expense amounts. -/
def monthExpensesTotal (d : MonthData) : ℚ :=
  (d.expenses.map (fun e => e.amount)).sum

/-- Every expense of every month (the iteration of `Object.keys` bodies). -/
def allExpenses (l : Ledger) : List Expense :=
  l.flatMap (fun kv => kv.2.expenses)

/-- `calculateAllTimeStats().totalIncome`. -/
def totalIncome (l : Ledger) : ℚ :=
  (l.map (fun kv => kv.2.income)).sum

/-- `calculateAllTimeStats().totalExpenses`, also the running
`totalSpending` of `getCategoryBreakdown`. -/
def totalSpending (l : Ledger) : ℚ :=
  ((allExpenses l).map (fun e => e.amount)).sum

/-- `calculateAllTimeStats().totalSaved`. -/
def totalSaved (l : Ledger) : ℚ := totalIncome l - totalSpending l

/-- Spending accumulated per category id across all months
(`categoryTotals[exp.category].total`). -/
def categoryTotal (l : Ledger) (cid : String) : ℚ :=
  (((allExpenses l).filter (fun e => decide (e.category = cid))).map
    (fun e => e.amount)).sum

/-- An element of the `getCategoryBreakdown` result:
`{...category, total, percentage}`. -/
structure BreakdownEntry where
  id : String
  name : String
  color : String
  total : ℚ
  percentage : ℚ
deriving DecidableEq

/-- The `{...cat, total, percentage}` object built per category by
`getCategoryBreakdown`. -/
def breakdownEntry (l : Ledger) (c : Category) : BreakdownEntry :=
  { id := c.id, name := c.name, color := c.color,
    total := categoryTotal l c.id,
    percentage :=
      if 0 < totalSpending l then categoryTotal l c.id / totalSpending l * 100
      else 0 }

/-- `getCategoryBreakdown()`: per-category totals over all months, only
categories with spending, percentage of total spending, sorted descending
by total. -/
def getCategoryBreakdown (l : Ledger) : List BreakdownEntry :=
  sortBy (fun a b => decide (b.total ≤ a.total))
    ((categories.map (breakdownEntry l)).filter
      (fun entry => decide (0 < entry.total)))

/-- The piecewise savings-rate score used by `getBudgetScore`. -/
def scoreOfRate (savingsRate : ℚ) : ℚ :=
  if 30 ≤ savingsRate then 100
  else if 20 ≤ savingsRate then 90
  else if 10 ≤ savingsRate then 75
  else if 5 ≤ savingsRate then 60
  else if 0 ≤ savingsRate then 50
  else max 0 (50 + savingsRate)

/-- `getBudgetScore()`: 0 when there is no income, else the piecewise score
of the all-time savings rate. -/
def getBudgetScore (l : Ledger) : ℚ :=
  if totalIncome l = 0 then 0
  else scoreOfRate (totalSaved l / totalIncome l * 100)

/-- The known months in chronological order
(`Object.keys(monthlyBudgets).sort()`). -/
def sortedKeys (l : Ledger) : List String :=
  sortBy strLe (l.map (fun kv => kv.1))

/-- The result of `getSpendingTrend`. -/
structure Trend where
  current : ℚ
  previous : ℚ
  change : ℚ
  isUp : Bool
deriving DecidableEq

/-- `getSpendingTrend()`: null with fewer than two known months, when the
current month is first (or absent: `indexOf` is -1), or when the previous
known month's expenses are 0. -/
def getSpendingTrend (l : Ledger) (currentMonth : String) : Option Trend :=
  let months := sortedKeys l
  if months.length < 2 then none
  else
    match months.indexOf? currentMonth with
    | none => none
    | some 0 => none
    | some (i + 1) =>
      let current := getMonthData l currentMonth
      let previous := getMonthData l ((months.get? i).getD "")
      let currentExpenses := monthExpensesTotal current
      let previousExpenses := monthExpensesTotal previous
      if previousExpenses = 0 then none
      else
        let change := (currentExpenses - previousExpenses) / previousExpenses * 100
        some { current := currentExpenses, previous := previousExpenses,
               change := change, isUp := decide (0 < change) }

/-- The known month immediately before `cur` in chronological order (used
to state the trend claims). -/
def immediatelyPreceding (l : Ledger) (cur : String) : Option String :=
  match (sortedKeys l).indexOf? cur with
  | some (i + 1) => (sortedKeys l).get? i
  | _ => none

/-! ## Alert evaluator (App.js) -/

/-- Current-month total: `calculateTotalExpenses()`. -/
def calculateTotalExpenses (d : MonthData) : ℚ :=
  (d.expenses.map (fun e => e.amount)).sum

/-- `calculateRemaining()` = income minus total expenses. -/
def calculateRemaining (d : MonthData) : ℚ :=
  d.income - calculateTotalExpenses d

/-- An element of the `calculateCategoryTotals` result. -/
structure CategoryTotalsEntry where
  id : String
  name : String
  color : String
  total : ℚ
  percentage : ℚ
  limit : ℚ
  percentOfLimit : ℚ
  isOverLimit : Bool
  isNearLimit : Bool
deriving DecidableEq

/-- The per-category object built by `calculateCategoryTotals`: spending,
share of income, configured limit, percent of limit and the
over-limit / near-limit classification (`0.8` is exactly `8/10` here). -/
def categoryEntry (d : MonthData) (c : Category) : CategoryTotalsEntry :=
  let total :=
    ((d.expenses.filter (fun e => decide (e.category = c.id))).map
      (fun e => e.amount)).sum
  let limit := lookupLimit d.categoryLimits c.id
  { id := c.id, name := c.name, color := c.color,
    total := total,
    percentage := if 0 < d.income then total / d.income * 100 else 0,
    limit := limit,
    percentOfLimit := if 0 < limit then total / limit * 100 else 0,
    isOverLimit := decide (0 < limit) && decide (limit < total),
    isNearLimit :=
      decide (0 < limit) && decide (limit * (8/10) ≤ total) &&
        decide (total ≤ limit) }

/-- `calculateCategoryTotals()` for a month record; only categories with
spending are returned. -/
def calculateCategoryTotals (d : MonthData) : List CategoryTotalsEntry :=
  (categories.map (categoryEntry d)).filter
    (fun entry => decide (0 < entry.total))

/-- The `forEach` body of `checkCategoryLimits`: walks the category totals
with the session's already-shown key set read at call entry (`stale`, the
closure's `alertsShown`), accumulating the updated shown set and the
emitted `(month, categoryId)` notification events in order. -/
def alertStep (cur : String) (stale : List String) :
    List CategoryTotalsEntry → List String → List String × List (String × String)
  | [], shown => (shown, [])
  | e :: es, shown =>
    let notificationKey := cur ++ "-" ++ e.id
    if e.isOverLimit && !(decide (notificationKey ∈ stale)) then
      let r := alertStep cur stale es (notificationKey :: shown)
      (r.1, (cur, e.id) :: r.2)
    else alertStep cur stale es shown

/-- `checkCategoryLimits()`: no-op without notification permission; else
emit one notification per over-limit category whose key is not yet in
`alertsShown`, and record those keys. -/
def checkCategoryLimits (s : AppState) : AppState × List (String × String) :=
  if s.notificationsEnabled then
    let r := alertStep s.currentMonth s.alertsShown
      (calculateCategoryTotals (getCurrentMonthData s)) s.alertsShown
    ({ s with alertsShown := r.1 }, r.2)
  else (s, [])

/-! ## Session traces -/

/-- The discrete user/system events that touch the ledger state. -/
inductive Op where
  | addExpense (now : Nat)
  | deleteExpense (id : Nat)
  | toggleRecurring (id : Nat)
  | saveEdit (editingExpenseId : Nat) (d : EditingExpenseData)
  | income (value : ℚ) (isRecurring : Option Bool)
  | limit (categoryId : String) (value : ℚ)
  | navigate (m : String)
  | populate (now : Nat)
  | checkLimits
  | setNotifications (enabled : Bool)
  | editForm (f : ExpenseForm)

/-- One event step; the second component is the list of notification events
`(month, categoryId)` the step emits. -/
def applyOp (s : AppState) : Op → AppState × List (String × String)
  | Op.addExpense now => (handleAddExpense s now, [])
  | Op.deleteExpense id => (handleDeleteExpense s id, [])
  | Op.toggleRecurring id => (toggleExpenseRecurring s id, [])
  | Op.saveEdit eid d => (handleSaveEdit s eid d, [])
  | Op.income v r => (setIncome s v r, [])
  | Op.limit cid v => (setCategoryLimit s cid v, [])
  | Op.navigate m => ({ s with currentMonth := m }, [])
  | Op.populate now => (autoPopulate s now, [])
  | Op.checkLimits => checkCategoryLimits s
  | Op.setNotifications b => ({ s with notificationsEnabled := b }, [])
  | Op.editForm f => ({ s with newExpense := f }, [])

/-- Run a session trace, concatenating all emitted notification events. -/
def runOps (s : AppState) : List Op → AppState × List (String × String)
  | [] => (s, [])
  | op :: ops =>
    let r := applyOp s op
    let r₂ := runOps r.1 ops
    (r₂.1, r.2 ++ r₂.2)

/-- What the save effect persists: `JSON.stringify(monthlyBudgets)` only;
the suppression set and the seen-set stay in memory. -/
def persistedData (s : AppState) : Ledger := s.monthlyBudgets

/-! ## Behaviour of the auto-populate effect -/

theorem autoPopulate_of_guard (s : AppState) (now : Nat)
    (h : s.currentMonth = "" ∨ s.currentMonth ∈ s.populatedMonths) :
    autoPopulate s now = s := by
  unfold autoPopulate
  rw [if_pos h]

theorem autoPopulate_shape (s : AppState) (now : Nat) :
    ((s.currentMonth = "" ∨ s.currentMonth ∈ s.populatedMonths) ∧ autoPopulate s now = s) ∨
    (∃ b, autoPopulate s now =
      { s with monthlyBudgets := b,
               populatedMonths := s.currentMonth :: s.populatedMonths }) := by
  by_cases h0 : s.currentMonth = "" ∨ s.currentMonth ∈ s.populatedMonths
  · exact Or.inl ⟨h0, autoPopulate_of_guard s now h0⟩
  · right
    unfold autoPopulate
    rw [if_neg h0]
    cases hfp : findPreviousMonth s.monthlyBudgets s.currentMonth with
    | none => exact ⟨s.monthlyBudgets, rfl⟩
    | some previousMonth =>
      dsimp only
      cases hlp : lookupMonth s.monthlyBudgets previousMonth with
      | none => exact ⟨s.monthlyBudgets, rfl⟩
      | some prevData =>
        dsimp only
        cases hcd : lookupMonth s.monthlyBudgets s.currentMonth with
        | none =>
          dsimp only
          by_cases hrec : (populateResult prevData now).2 = true
          · rw [if_pos hrec]
            exact ⟨upsertMonth s.monthlyBudgets s.currentMonth (populateResult prevData now).1, rfl⟩
          · rw [if_neg hrec]
            exact ⟨s.monthlyBudgets, rfl⟩
        | some d =>
          dsimp only
          by_cases hfull : (!d.expenses.isEmpty || decide (0 < d.income)) = true
          · rw [if_pos hfull]
            exact ⟨s.monthlyBudgets, rfl⟩
          · rw [if_neg hfull]
            by_cases hrec : (populateResult prevData now).2 = true
            · rw [if_pos hrec]
              exact ⟨upsertMonth s.monthlyBudgets s.currentMonth (populateResult prevData now).1, rfl⟩
            · rw [if_neg hrec]
              exact ⟨s.monthlyBudgets, rfl⟩

theorem autoPopulate_currentMonth (s : AppState) (now : Nat) :
    (autoPopulate s now).currentMonth = s.currentMonth := by
  rcases autoPopulate_shape s now with ⟨_, h⟩ | ⟨b, h⟩ <;> rw [h]

theorem autoPopulate_mem_populated (s : AppState) (now : Nat)
    (h : s.currentMonth ≠ "") :
    s.currentMonth ∈ (autoPopulate s now).populatedMonths := by
  rcases autoPopulate_shape s now with ⟨h0, heq⟩ | ⟨b, heq⟩
  · rw [heq]
    rcases h0 with h0 | h0
    · exact absurd h0 h
    · exact h0
  · rw [heq]
    exact List.mem_cons_self _ _

theorem handleDeleteExpense_frame_session (s : AppState) (id : Nat) :
    (handleDeleteExpense s id).currentMonth = s.currentMonth ∧
    (handleDeleteExpense s id).populatedMonths = s.populatedMonths := by
  exact ⟨rfl, rfl⟩

theorem foldl_delete_session (dels : List Nat) (s : AppState) :
    (dels.foldl handleDeleteExpense s).currentMonth = s.currentMonth ∧
    (dels.foldl handleDeleteExpense s).populatedMonths = s.populatedMonths := by
  induction dels generalizing s with
  | nil => exact ⟨rfl, rfl⟩
  | cons d ds ih =>
    simp only [List.foldl_cons]
    exact ⟨(ih (handleDeleteExpense s d)).1, (ih (handleDeleteExpense s d)).2⟩

/-- C1: if the target month's stored record already has an expense or a
positive income, the recurring-propagation pass leaves that record exactly
as it was, whatever the source month holds. -/
theorem C1_no_overwrite (s : AppState) (now : Nat) (d : MonthData)
    (hd : lookupMonth s.monthlyBudgets s.currentMonth = some d)
    (hdata : d.expenses ≠ [] ∨ 0 < d.income) :
    lookupMonth (autoPopulate s now).monthlyBudgets s.currentMonth = some d := by
  by_cases h0 : s.currentMonth = "" ∨ s.currentMonth ∈ s.populatedMonths
  · rw [autoPopulate_of_guard s now h0]
    exact hd
  · unfold autoPopulate
    rw [if_neg h0]
    cases hfp : findPreviousMonth s.monthlyBudgets s.currentMonth with
    | none => exact hd
    | some previousMonth =>
      dsimp only
      cases hlp : lookupMonth s.monthlyBudgets previousMonth with
      | none => exact hd
      | some prevData =>
        dsimp only
        rw [hd]
        dsimp only
        have hbool : (!d.expenses.isEmpty || decide (0 < d.income)) = true := by
          rcases hdata with h | h
          · have hne : d.expenses.isEmpty = false := by
              cases hx : d.expenses with
              | nil => exact absurd hx h
              | cons a as => rfl
            simp [hne]
          · simp [h]
        rw [if_pos hbool]
        exact hd

/-- C1 witness. -/
theorem C1_no_overwrite_witness :
    lookupMonth
        (autoPopulate
          { monthlyBudgets :=
              [("2025-01",
                { income := 2000, incomeRecurring := true,
                  expenses := [{ id := 1, name := "Gym", amount := 50,
                                 category := "personal", isRecurring := true }],
                  categoryLimits := [] }),
               ("2025-02",
                { income := 7, incomeRecurring := false, expenses := [],
                  categoryLimits := [] })],
            currentMonth := "2025-02",
            newExpense := { name := "", amount := none, category := "food",
                            isRecurring := false },
            populatedMonths := [], alertsShown := [],
            notificationsEnabled := false } 100).monthlyBudgets "2025-02"
      = some { income := 7, incomeRecurring := false, expenses := [],
               categoryLimits := [] } := by
  apply C1_no_overwrite
  · rfl
  · right
    norm_num

/-- C2: recurring propagation runs at most once per target month per
session: after one pass over the current month, a second pass is the
identity on the whole state — the seen-set blocks it — even when expenses
of that month were deleted (re-emptying it) in between; in particular the
expense set equals the one after the single pass. -/
theorem C2_propagation_at_most_once (s : AppState) (now₁ now₂ : Nat)
    (dels : List Nat) :
    autoPopulate (dels.foldl handleDeleteExpense (autoPopulate s now₁)) now₂
      = dels.foldl handleDeleteExpense (autoPopulate s now₁) ∧
    (getMonthData
        (autoPopulate (dels.foldl handleDeleteExpense (autoPopulate s now₁))
          now₂).monthlyBudgets s.currentMonth).expenses
      = (getMonthData
          (dels.foldl handleDeleteExpense
            (autoPopulate s now₁)).monthlyBudgets s.currentMonth).expenses := by
  have hcur₁ := autoPopulate_currentMonth s now₁
  have hsess := foldl_delete_session dels (autoPopulate s now₁)
  have hmain :
      autoPopulate (dels.foldl handleDeleteExpense (autoPopulate s now₁)) now₂
        = dels.foldl handleDeleteExpense (autoPopulate s now₁) := by
    apply autoPopulate_of_guard
    by_cases hcur : s.currentMonth = ""
    · left
      rw [hsess.1, hcur₁, hcur]
    · right
      rw [hsess.1, hcur₁, hsess.2]
      exact autoPopulate_mem_populated s now₁ hcur
  exact ⟨hmain, by rw [hmain]⟩

theorem assignNewIds_isEmpty (now : Nat) (j : Nat) (es : List Expense) :
    (assignNewIds now j es).isEmpty = es.isEmpty := by
  cases es with
  | nil => rfl
  | cons e rest => rfl

theorem assignNewIds_get (now : Nat) (j i : Nat) (es : List Expense) :
    (assignNewIds now j es).get? i = (es.get? i).map (fun e => { e with id := now + (j + i) }) := by
  induction es generalizing j i with
  | nil => simp [assignNewIds]
  | cons e rest ih =>
    cases i with
    | zero => simp [assignNewIds]
    | succ i₂ =>
      simp only [assignNewIds, List.get?]
      rw [ih (j + 1) i₂]
      have harith : j + 1 + i₂ = j + (i₂ + 1) := by omega
      rw [harith]

/-- C3: when the propagation fires from the previous month into an empty
current month, it copies the income (with the recurring flag) iff the
previous income is recurring and positive, copies exactly the recurring
expenses — each identical to the original except for a fresh id distinct
from the original's — copies the category limits verbatim, and the
`hasRecurringData` flag reports whether anything was copied (when it is
false nothing is written). -/
theorem C3_propagation_copies (s : AppState) (now : Nat) (fromKey : String)
    (prevData : MonthData)
    (h0 : ¬ (s.currentMonth = "" ∨ s.currentMonth ∈ s.populatedMonths))
    (hfrom : findPreviousMonth s.monthlyBudgets s.currentMonth = some fromKey)
    (hprev : lookupMonth s.monthlyBudgets fromKey = some prevData)
    (hempty : ∀ d, lookupMonth s.monthlyBudgets s.currentMonth = some d →
        d.expenses = [] ∧ ¬ 0 < d.income)
    (hfresh : ∀ e ∈ prevData.expenses, e.id < now) :
    ((populateResult prevData now).2 =
      ((prevData.incomeRecurring && decide (0 < prevData.income)) ||
        !(prevData.expenses.filter (fun e => e.isRecurring)).isEmpty)) ∧
    ((populateResult prevData now).2 = true →
      lookupMonth (autoPopulate s now).monthlyBudgets s.currentMonth =
        some { income :=
                 if prevData.incomeRecurring && decide (0 < prevData.income) then
                   prevData.income
                 else 0,
               incomeRecurring :=
                 prevData.incomeRecurring && decide (0 < prevData.income),
               expenses :=
                 assignNewIds now 0 (prevData.expenses.filter (fun e => e.isRecurring)),
               categoryLimits := prevData.categoryLimits }) ∧
    ((populateResult prevData now).2 = false →
      (autoPopulate s now).monthlyBudgets = s.monthlyBudgets) ∧
    (∀ i e₀, (prevData.expenses.filter (fun e => e.isRecurring)).get? i = some e₀ →
      (assignNewIds now 0 (prevData.expenses.filter (fun e => e.isRecurring))).get? i
          = some { e₀ with id := now + i } ∧ now + i ≠ e₀.id) := by
  have hwrite :
      (populateResult prevData now).2 = true →
        (autoPopulate s now).monthlyBudgets =
          upsertMonth s.monthlyBudgets s.currentMonth (populateResult prevData now).1 := by
    intro hrec
    unfold autoPopulate
    rw [if_neg h0, hfrom]
    dsimp only
    rw [hprev]
    dsimp only
    cases hcd : lookupMonth s.monthlyBudgets s.currentMonth with
    | none =>
      dsimp only
      rw [if_pos hrec]
      simp [markPopulated]
    | some d =>
      dsimp only
      have hdempty := hempty d hcd
      have hfull : (!d.expenses.isEmpty || decide (0 < d.income)) = false := by
        have h1 : d.expenses.isEmpty = true := by
          rw [hdempty.1]
          rfl
        simp [h1, hdempty.2]
      rw [hfull]
      simp only [Bool.false_eq_true, if_false]
      rw [if_pos hrec]
      rfl
  have hnowrite :
      (populateResult prevData now).2 = false →
        (autoPopulate s now).monthlyBudgets = s.monthlyBudgets := by
    intro hrec
    unfold autoPopulate
    rw [if_neg h0, hfrom]
    dsimp only
    rw [hprev]
    dsimp only
    cases hcd : lookupMonth s.monthlyBudgets s.currentMonth with
    | none =>
      dsimp only
      rw [hrec]
      simp [markPopulated]
    | some d =>
      dsimp only
      have hdempty := hempty d hcd
      have hfull : (!d.expenses.isEmpty || decide (0 < d.income)) = false := by
        have h1 : d.expenses.isEmpty = true := by
          rw [hdempty.1]
          rfl
        simp [h1, hdempty.2]
      rw [hfull]
      simp only [Bool.false_eq_true, if_false]
      rw [hrec]
      simp [markPopulated]
  have hflag :
      (populateResult prevData now).2 =
        ((prevData.incomeRecurring && decide (0 < prevData.income)) ||
          !(prevData.expenses.filter (fun e => e.isRecurring)).isEmpty) := by
    unfold populateResult
    dsimp only
    rw [assignNewIds_isEmpty]
  refine ⟨hflag, ?_, hnowrite, ?_⟩
  · intro hrec
    rw [hwrite hrec, lookupMonth_upsertMonth_self]
    rfl
  · intro i e₀ hi
    have hmem : e₀ ∈ prevData.expenses.filter (fun e => e.isRecurring) :=
      List.get?_mem hi
    have hmem₂ : e₀ ∈ prevData.expenses := List.mem_of_mem_filter hmem
    have hlt : e₀.id < now := hfresh e₀ hmem₂
    constructor
    · rw [assignNewIds_get now 0 i]
      rw [hi]
      simp
    · omega

/-- Scenario state for the C3 witness: month A (`2025-01`) with recurring
income 2000 and one recurring expense Gym/50/personal; current month
`2025-02` is empty and unseen. -/
def c3State : AppState :=
  { monthlyBudgets :=
      [("2025-01",
        { income := 2000, incomeRecurring := true,
          expenses := [{ id := 1, name := "Gym", amount := 50,
                         category := "personal", isRecurring := true }],
          categoryLimits := [] })],
    currentMonth := "2025-02",
    newExpense := { name := "", amount := none, category := "food",
                    isRecurring := false },
    populatedMonths := [], alertsShown := [], notificationsEnabled := false }

def c3PrevData : MonthData :=
  { income := 2000, incomeRecurring := true,
    expenses := [{ id := 1, name := "Gym", amount := 50,
                   category := "personal", isRecurring := true }],
    categoryLimits := [] }

/-- C3 witness: navigating to empty month B copies income 2000 (recurring)
and the Gym expense with the fresh id 100 ≠ 1. -/
theorem C3_propagation_copies_witness :
    lookupMonth (autoPopulate c3State 100).monthlyBudgets "2025-02" =
      some { income := 2000, incomeRecurring := true,
             expenses := [{ id := 100, name := "Gym", amount := 50,
                            category := "personal", isRecurring := true }],
             categoryLimits := [] } ∧ 100 + 0 ≠ 1 := by
  have h := C3_propagation_copies c3State 100 "2025-01" c3PrevData
    (by
      intro hor
      rcases hor with h1 | h1
      · exact absurd h1 (by decide)
      · simp [c3State] at h1)
    (by decide)
    (by rfl)
    (by
      intro d hd
      rw [show lookupMonth c3State.monthlyBudgets c3State.currentMonth = none from
        rfl] at hd
      cases hd)
    (by
      intro e he
      simp [c3PrevData] at he
      rw [he]
      norm_num)
  have hcopied : (populateResult c3PrevData 100).2 = true := by
    rw [h.1]
    norm_num [c3PrevData, List.filter, List.isEmpty]
  have hmain := h.2.1 hcopied
  constructor
  · rw [show c3State.currentMonth = "2025-02" from rfl] at hmain
    rw [hmain]
    norm_num [c3PrevData, assignNewIds, List.filter]
  · exact (h.2.2.2 0
      { id := 1, name := "Gym", amount := 50, category := "personal",
        isRecurring := true } (by norm_num [c3PrevData, List.filter])).2

/-- C10: every single-month mutation — set income, set a category limit,
add, edit, delete or toggle an expense — rewrites only the current month's
ledger entry; the stored record of every other month-key is unchanged. -/
theorem C10_single_month_frame (s : AppState) (k : String) (v : ℚ)
    (recur : Option Bool) (cid : String) (lim : ℚ) (now : Nat) (eid : Nat)
    (d : EditingExpenseData) (did tid : Nat) (hk : k ≠ s.currentMonth) :
    lookupMonth (setIncome s v recur).monthlyBudgets k
      = lookupMonth s.monthlyBudgets k ∧
    lookupMonth (setCategoryLimit s cid lim).monthlyBudgets k
      = lookupMonth s.monthlyBudgets k ∧
    lookupMonth (handleAddExpense s now).monthlyBudgets k
      = lookupMonth s.monthlyBudgets k ∧
    lookupMonth (handleSaveEdit s eid d).monthlyBudgets k
      = lookupMonth s.monthlyBudgets k ∧
    lookupMonth (handleDeleteExpense s did).monthlyBudgets k
      = lookupMonth s.monthlyBudgets k ∧
    lookupMonth (toggleExpenseRecurring s tid).monthlyBudgets k
      = lookupMonth s.monthlyBudgets k := by
  have hframe : ∀ nd : MonthData,
      lookupMonth (upsertMonth s.monthlyBudgets s.currentMonth nd) k
        = lookupMonth s.monthlyBudgets k :=
    fun nd => lookupMonth_upsertMonth_ne s.monthlyBudgets s.currentMonth k nd hk
  refine ⟨hframe _, hframe _, ?_, ?_, hframe _, hframe _⟩
  · unfold handleAddExpense
    cases ha : s.newExpense.amount with
    | none => rfl
    | some q =>
      dsimp only
      by_cases hn : s.newExpense.name = ""
      · rw [if_pos hn]
      · rw [if_neg hn]
        exact hframe _
  · unfold handleSaveEdit
    cases ha : d.amount with
    | none => rfl
    | some q =>
      dsimp only
      by_cases hn : d.name = ""
      · rw [if_pos hn]
      · rw [if_neg hn]
        exact hframe _

def c10State : AppState :=
  { monthlyBudgets :=
      [("2025-01",
        { income := 900, incomeRecurring := false,
          expenses := [{ id := 5, name := "Bus", amount := 30,
                         category := "transport", isRecurring := false }],
          categoryLimits := [] })],
    currentMonth := "2025-02",
    newExpense := { name := "Tea", amount := some 3, category := "food",
                    isRecurring := false },
    populatedMonths := [], alertsShown := [], notificationsEnabled := false }

/-- C10 witness: mutations of `2025-02` leave the stored `2025-01` record
untouched. -/
theorem C10_single_month_frame_witness :
    lookupMonth (setIncome c10State 1234 (some true)).monthlyBudgets "2025-01"
      = lookupMonth c10State.monthlyBudgets "2025-01" ∧
    lookupMonth (handleAddExpense c10State 42).monthlyBudgets "2025-01"
      = lookupMonth c10State.monthlyBudgets "2025-01" := by
  have h := C10_single_month_frame c10State "2025-01" 1234 (some true) "food" 9 42 5
    { id := 5, name := "Bus", amount := some 31, category := "transport",
      isRecurring := false } 5 5 (by decide)
  exact ⟨h.1, h.2.2.1⟩

/-- State refuting C4 as written: the add-expense form holds the non-empty
numeral string "0", which parses to the non-positive amount 0. -/
def c4State : AppState :=
  { monthlyBudgets := [], currentMonth := "2025-01",
    newExpense := { name := "Rent", amount := some 0, category := "housing",
                    isRecurring := false },
    populatedMonths := [], alertsShown := [], notificationsEnabled := false }

/-- C4 counterexample: with a non-empty name and the amount string "0" —
which is NOT a positive-parseable number — the claim requires a silent
no-op, but the code appends an expense of amount 0: the guard only tests
string truthiness, not positivity. -/
theorem C4_counterexample :
    ¬ ((0 : ℚ) < 0) ∧
    c4State.newExpense.amount = some 0 ∧
    c4State.newExpense.name ≠ "" ∧
    (getMonthData c4State.monthlyBudgets c4State.currentMonth).expenses = [] ∧
    (getMonthData (handleAddExpense c4State 123).monthlyBudgets
        c4State.currentMonth).expenses
      = [{ id := 123, name := "Rent", amount := 0, category := "housing",
           isRecurring := false }] := by
  refine ⟨by norm_num, rfl, by decide, rfl, rfl⟩

/-- C4 amended: the add operation is a silent no-op iff the name string or
the amount string is empty (JS truthiness); otherwise it appends exactly
one new expense with the timestamp id, the given name, the parsed amount
(which may be zero or negative), the given category and recurring flag,
and resets the form. -/
theorem C4_amended_validation (s : AppState) (now : Nat) :
    (handleAddExpense s now = s ↔
      (s.newExpense.name = "" ∨ s.newExpense.amount = none)) ∧
    (∀ q, s.newExpense.amount = some q → s.newExpense.name ≠ "" →
      (getMonthData (handleAddExpense s now).monthlyBudgets
          s.currentMonth).expenses
        = (getMonthData s.monthlyBudgets s.currentMonth).expenses ++
            [{ id := now, name := s.newExpense.name, amount := q,
               category := s.newExpense.category,
               isRecurring := s.newExpense.isRecurring }] ∧
      (handleAddExpense s now).newExpense =
        { name := "", amount := none, category := "food",
          isRecurring := false }) := by
  constructor
  · constructor
    · intro heq
      by_cases hn : s.newExpense.name = ""
      · exact Or.inl hn
      · cases haq : s.newExpense.amount with
        | none => exact Or.inr rfl
        | some q =>
          exfalso
          have hform : (handleAddExpense s now).newExpense.name = "" := by
            unfold handleAddExpense
            rw [haq]
            dsimp only
            rw [if_neg hn]
          rw [heq] at hform
          exact hn hform
    · intro h
      unfold handleAddExpense
      cases haq : s.newExpense.amount with
      | none => rfl
      | some q =>
        dsimp only
        rcases h with hn | ha
        · rw [if_pos hn]
        · rw [haq] at ha
          cases ha
  · intro q haq hn
    constructor
    · unfold handleAddExpense
      rw [haq]
      dsimp only
      rw [if_neg hn]
      simp only [setExpenses]
      unfold getMonthData
      rw [lookupMonth_upsertMonth_self]
      rfl
    · unfold handleAddExpense
      rw [haq]
      dsimp only
      rw [if_neg hn]

def c4OkState : AppState :=
  { monthlyBudgets := [], currentMonth := "2025-03",
    newExpense := { name := "Coffee", amount := some 4, category := "food",
                    isRecurring := false },
    populatedMonths := [], alertsShown := [], notificationsEnabled := false }

/-- C4 amended witness: adding Coffee/4 appends exactly that expense. -/
theorem C4_amended_validation_witness :
    (getMonthData (handleAddExpense c4OkState 77).monthlyBudgets
        "2025-03").expenses
      = [{ id := 77, name := "Coffee", amount := 4, category := "food",
           isRecurring := false }] := by
  have h := (C4_amended_validation c4OkState 77).2 4 rfl (by decide)
  exact h.1

/-- Scenario month for C8: income 3000, one expense Rent/1200/housing,
limit housing = 1000. -/
def c8Month : MonthData :=
  { income := 3000, incomeRecurring := false,
    expenses := [{ id := 1, name := "Rent", amount := 1200,
                   category := "housing", isRecurring := false }],
    categoryLimits := [("housing", 1000)] }

/-- C8: for every category entry with a configured (positive) limit the
evaluator computes `percentOfLimit = 100 * spent / limit`,
`isOverLimit = (spent > limit)` and
`isNearLimit = (0.8 * limit ≤ spent ≤ limit)`; over-limit and near-limit
are never both true; and in the scenario income 3000 / Rent 1200 housing /
limit 1000 the housing entry is over limit with `percentOfLimit = 120` and
remaining is 1800. -/
theorem C8_limit_classification :
    (∀ (d : MonthData), ∀ e ∈ calculateCategoryTotals d,
      (0 < e.limit →
        e.percentOfLimit = 100 * e.total / e.limit ∧
        (e.isOverLimit = true ↔ e.limit < e.total) ∧
        (e.isNearLimit = true ↔
          (e.limit * (8/10) ≤ e.total ∧ e.total ≤ e.limit))) ∧
      ¬ (e.isOverLimit = true ∧ e.isNearLimit = true)) ∧
    (∃ e ∈ calculateCategoryTotals c8Month,
      e.id = "housing" ∧ e.isOverLimit = true ∧ e.percentOfLimit = 120) ∧
    calculateRemaining c8Month = 1800 := by
  refine ⟨?_, ?_, ?_⟩
  · intro d e he
    obtain ⟨hmem, hpos⟩ := List.mem_filter.mp he
    obtain ⟨c, hc, rfl⟩ := List.mem_map.mp hmem
    have hpol : (categoryEntry d c).percentOfLimit =
        if 0 < (categoryEntry d c).limit then
          (categoryEntry d c).total / (categoryEntry d c).limit * 100
        else 0 := rfl
    have hover : (categoryEntry d c).isOverLimit =
        (decide (0 < (categoryEntry d c).limit) &&
          decide ((categoryEntry d c).limit < (categoryEntry d c).total)) := rfl
    have hnear : (categoryEntry d c).isNearLimit =
        (decide (0 < (categoryEntry d c).limit) &&
          decide ((categoryEntry d c).limit * (8/10) ≤ (categoryEntry d c).total) &&
          decide ((categoryEntry d c).total ≤ (categoryEntry d c).limit)) := rfl
    constructor
    · intro hlim
      refine ⟨?_, ?_, ?_⟩
      · rw [hpol, if_pos hlim]
        ring
      · rw [hover]
        simp [hlim]
      · rw [hnear]
        simp [hlim, and_assoc]
    · intro hboth
      obtain ⟨h1, h2⟩ := hboth
      rw [hover] at h1
      rw [hnear] at h2
      simp only [Bool.and_eq_true, decide_eq_true_eq] at h1 h2
      linarith [h1.2, h2.2]
  · refine ⟨categoryEntry c8Month
      { id := "housing", name := "Housing", color := "#00e5ff" }, ?_, rfl, ?_, ?_⟩
    · apply List.mem_filter.mpr
      constructor
      · exact List.mem_map.mpr
          ⟨{ id := "housing", name := "Housing", color := "#00e5ff" },
            by decide, rfl⟩
      · have htot : (categoryEntry c8Month
            { id := "housing", name := "Housing", color := "#00e5ff" }).total
              = 1200 := by
          norm_num [categoryEntry, c8Month, List.filter_cons]
        simp only [htot, decide_eq_true_eq]
        norm_num
    · have hlim : (categoryEntry c8Month
          { id := "housing", name := "Housing", color := "#00e5ff" }).limit
            = 1000 := by
        norm_num [categoryEntry, c8Month, lookupLimit]
      have htot : (categoryEntry c8Month
          { id := "housing", name := "Housing", color := "#00e5ff" }).total
            = 1200 := by
        norm_num [categoryEntry, c8Month, List.filter_cons]
      have hover : (categoryEntry c8Month
          { id := "housing", name := "Housing", color := "#00e5ff" }).isOverLimit =
          (decide (0 < (1000 : ℚ)) && decide ((1000 : ℚ) < 1200)) := by
        rw [show (categoryEntry c8Month
          { id := "housing", name := "Housing", color := "#00e5ff" }).isOverLimit =
            (decide (0 < (categoryEntry c8Month
              { id := "housing", name := "Housing", color := "#00e5ff" }).limit) &&
             decide ((categoryEntry c8Month
              { id := "housing", name := "Housing", color := "#00e5ff" }).limit <
                (categoryEntry c8Month
              { id := "housing", name := "Housing", color := "#00e5ff" }).total))
          from rfl, hlim, htot]
      rw [hover]
      norm_num
    · have hlim : (categoryEntry c8Month
          { id := "housing", name := "Housing", color := "#00e5ff" }).limit
            = 1000 := by
        norm_num [categoryEntry, c8Month, lookupLimit]
      have htot : (categoryEntry c8Month
          { id := "housing", name := "Housing", color := "#00e5ff" }).total
            = 1200 := by
        norm_num [categoryEntry, c8Month, List.filter_cons]
      have hpol : (categoryEntry c8Month
          { id := "housing", name := "Housing", color := "#00e5ff" }).percentOfLimit =
          if 0 < (1000 : ℚ) then (1200 : ℚ) / 1000 * 100 else 0 := by
        rw [show (categoryEntry c8Month
          { id := "housing", name := "Housing", color := "#00e5ff" }).percentOfLimit =
            (if 0 < (categoryEntry c8Month
              { id := "housing", name := "Housing", color := "#00e5ff" }).limit then
              (categoryEntry c8Month
                { id := "housing", name := "Housing", color := "#00e5ff" }).total /
                (categoryEntry c8Month
                  { id := "housing", name := "Housing", color := "#00e5ff" }).limit * 100
             else 0)
          from rfl, hlim, htot]
      rw [hpol]
      norm_num
  · norm_num [calculateRemaining, calculateTotalExpenses, c8Month]

/-- C8 witness: the scenario facts, by the classification theorem. -/
theorem C8_limit_classification_witness :
    calculateRemaining c8Month = 1800 ∧
    (∃ e ∈ calculateCategoryTotals c8Month,
      e.id = "housing" ∧ e.isOverLimit = true ∧ e.percentOfLimit = 120) :=
  ⟨C8_limit_classification.2.2, C8_limit_classification.2.1⟩

theorem scoreOfRate_nonneg_le (r : ℚ) :
    0 ≤ scoreOfRate r ∧ scoreOfRate r ≤ 100 := by
  unfold scoreOfRate
  split_ifs with h1 h2 h3 h4 h5
  · norm_num
  · norm_num
  · norm_num
  · norm_num
  · norm_num
  · rw [not_le] at h5
    constructor
    · exact le_max_left _ _
    · apply max_le
      · norm_num
      · linarith

theorem scoreOfRate_mono (r₁ r₂ : ℚ) (h : r₁ ≤ r₂) :
    scoreOfRate r₁ ≤ scoreOfRate r₂ := by
  unfold scoreOfRate
  split_ifs <;> simp only [not_le] at * <;>
    first
      | linarith
      | (apply max_le
         · norm_num
         · linarith)
      | (exact max_le_max (le_refl 0) (by linarith))

/-- C6: the budget score is the piecewise threshold function of the savings
rate `100 * totalSaved / totalIncome` (score 0 when total income is 0), the
threshold function takes the documented values on each band, the score
always lies in [0, 100], and it is monotone non-decreasing in the savings
rate. -/
theorem C6_budget_score (l : Ledger) :
    0 ≤ getBudgetScore l ∧ getBudgetScore l ≤ 100 ∧
    (totalIncome l = 0 → getBudgetScore l = 0) ∧
    (totalIncome l ≠ 0 →
      getBudgetScore l = scoreOfRate (100 * totalSaved l / totalIncome l)) ∧
    (∀ r₁ r₂ : ℚ, r₁ ≤ r₂ → scoreOfRate r₁ ≤ scoreOfRate r₂) ∧
    (∀ r : ℚ,
      (30 ≤ r → scoreOfRate r = 100) ∧
      (20 ≤ r → r < 30 → scoreOfRate r = 90) ∧
      (10 ≤ r → r < 20 → scoreOfRate r = 75) ∧
      (5 ≤ r → r < 10 → scoreOfRate r = 60) ∧
      (0 ≤ r → r < 5 → scoreOfRate r = 50) ∧
      (r < 0 → scoreOfRate r = max 0 (50 + r))) := by
  have hbounds : 0 ≤ getBudgetScore l ∧ getBudgetScore l ≤ 100 := by
    unfold getBudgetScore
    split_ifs with h0
    · norm_num
    · exact scoreOfRate_nonneg_le _
  refine ⟨hbounds.1, hbounds.2, ?_, ?_, scoreOfRate_mono, ?_⟩
  · intro h0
    unfold getBudgetScore
    rw [if_pos h0]
  · intro h0
    unfold getBudgetScore
    rw [if_neg h0]
    have harg : totalSaved l / totalIncome l * 100
        = 100 * totalSaved l / totalIncome l := by
      ring
    rw [harg]
  · intro r
    refine ⟨?_, ?_, ?_, ?_, ?_, ?_⟩
    · intro ha
      unfold scoreOfRate
      rw [if_pos ha]
    · intro ha hb
      unfold scoreOfRate
      rw [if_neg (by linarith), if_pos ha]
    · intro ha hb
      unfold scoreOfRate
      rw [if_neg (by linarith), if_neg (by linarith), if_pos ha]
    · intro ha hb
      unfold scoreOfRate
      rw [if_neg (by linarith), if_neg (by linarith), if_neg (by linarith),
        if_pos ha]
    · intro ha hb
      unfold scoreOfRate
      rw [if_neg (by linarith), if_neg (by linarith), if_neg (by linarith),
        if_neg (by linarith), if_pos ha]
    · intro ha
      unfold scoreOfRate
      rw [if_neg (by linarith), if_neg (by linarith), if_neg (by linarith),
        if_neg (by linarith), if_neg (by linarith)]

/-- Ledger with a 10% all-time savings rate for the C6 witness. -/
def c6Ledger : Ledger :=
  [("2025-01",
    { income := 1000, incomeRecurring := false,
      expenses := [{ id := 1, name := "Rent", amount := 900,
                     category := "housing", isRecurring := false }],
      categoryLimits := [] })]

/-- C6 witness: savings rate 10 gives score 75, and the score function is
monotone between the sample rates 7 and 12. -/
theorem C6_budget_score_witness :
    getBudgetScore c6Ledger = 75 ∧ scoreOfRate 7 ≤ scoreOfRate 12 := by
  have h := C6_budget_score c6Ledger
  constructor
  · have hne : totalIncome c6Ledger ≠ 0 := by
      norm_num [totalIncome, c6Ledger]
    rw [h.2.2.2.1 hne]
    have harg : 100 * totalSaved c6Ledger / totalIncome c6Ledger = 10 := by
      norm_num [totalSaved, totalIncome, totalSpending, allExpenses, c6Ledger]
    rw [harg]
    rw [(h.2.2.2.2.2 10).2.2.1 (by norm_num) (by norm_num)]
  · exact h.2.2.2.2.1 7 12 (by norm_num)

theorem indexOf?_lt_length {l : List String} {a : String} {n : Nat}
    (h : l.indexOf? a = some n) : n < l.length := by
  induction l generalizing n with
  | nil => simp [List.indexOf?_nil] at h
  | cons x xs ih =>
    rw [List.indexOf?_cons] at h
    by_cases hx : (x == a) = true
    · rw [if_pos hx] at h
      injection h with h
      simp [← h]
    · rw [if_neg hx] at h
      cases hxs : xs.indexOf? a with
      | none =>
        rw [hxs] at h
        simp at h
      | some m =>
        rw [hxs] at h
        rw [show Option.map Nat.succ (some m) = some (m + 1) from rfl] at h
        injection h with h
        have := ih hxs
        simp only [List.length_cons]
        omega

theorem indexOf?_mem {l : List String} {a : String} {n : Nat}
    (h : l.indexOf? a = some n) : a ∈ l := by
  by_contra hmem
  have hnone : l.indexOf? a = none := by
    rw [List.indexOf?_eq_none_iff]
    intro x hx
    intro hbeq
    have := eq_of_beq hbeq
    rw [this] at hx
    exact hmem hx
  rw [hnone] at h
  cases h

theorem immediatelyPreceding_eq_none_iff (l : Ledger) (cur : String) :
    immediatelyPreceding l cur = none ↔
      (cur ∉ sortedKeys l ∨ (sortedKeys l).head? = some cur) := by
  unfold immediatelyPreceding
  cases hidx : (sortedKeys l).indexOf? cur with
  | none =>
    constructor
    · intro _
      left
      intro hmem
      rw [List.indexOf?_eq_none_iff] at hidx
      exact (hidx cur hmem) (by simp)
    · intro _
      rfl
  | some n =>
    cases n with
    | zero =>
      constructor
      · intro _
        right
        cases hms : sortedKeys l with
        | nil =>
          rw [hms] at hidx
          simp [List.indexOf?_nil] at hidx
        | cons x xs =>
          rw [hms, List.indexOf?_cons] at hidx
          by_cases hx : (x == cur) = true
          · have hxe : x = cur := eq_of_beq hx
            rw [hxe]
            rfl
          · rw [if_neg hx] at hidx
            cases hxs : xs.indexOf? cur with
            | none =>
              rw [hxs] at hidx
              cases hidx
            | some m =>
              rw [hxs] at hidx
              rw [show Option.map Nat.succ (some m) = some (m + 1) from rfl] at hidx
              injection hidx with hidx
              cases hidx
      · intro _
        rfl
    | succ i =>
      have hlt : i + 1 < (sortedKeys l).length := indexOf?_lt_length hidx
      have hi : i < (sortedKeys l).length := by omega
      have hget : (sortedKeys l).get? i = some ((sortedKeys l).get ⟨i, hi⟩) :=
        List.get?_eq_get hi
      constructor
      · intro hn
        dsimp only at hn
        rw [hget] at hn
        cases hn
      · intro hr
        exfalso
        rcases hr with hr | hr
        · exact hr (indexOf?_mem hidx)
        · cases hms : sortedKeys l with
          | nil =>
            rw [hms] at hr
            cases hr
          | cons x xs =>
            rw [hms] at hr
            have hxe : x = cur := by
              have : some x = some cur := hr
              injection this
            rw [hms, List.indexOf?_cons, hxe] at hidx
            rw [if_pos (by simp)] at hidx
            injection hidx with hidx
            cases hidx

/-- C7 amended: the month-over-month trend is null exactly when fewer than
two known months exist, or the current key has no immediately preceding
known month — that is, it is absent from the known months or is the
chronologically earliest — or the immediately preceding known month's total
expenses are 0; otherwise it reports the current and preceding months'
totals with `changePercent = 100 * (current - previous) / previous` and
`isIncrease = (changePercent > 0)`. -/
theorem C7_trend_amended (l : Ledger) (cur : String) :
    (getSpendingTrend l cur = none ↔
      ((sortedKeys l).length < 2 ∨ immediatelyPreceding l cur = none ∨
        (∃ pk, immediatelyPreceding l cur = some pk ∧
          monthExpensesTotal (getMonthData l pk) = 0))) ∧
    (immediatelyPreceding l cur = none ↔
      (cur ∉ sortedKeys l ∨ (sortedKeys l).head? = some cur)) ∧
    (∀ t, getSpendingTrend l cur = some t →
      ∃ pk, immediatelyPreceding l cur = some pk ∧
        t.current = monthExpensesTotal (getMonthData l cur) ∧
        t.previous = monthExpensesTotal (getMonthData l pk) ∧
        t.previous ≠ 0 ∧
        t.change = (t.current - t.previous) / t.previous * 100 ∧
        t.isUp = decide (0 < t.change)) := by
  refine ⟨?_, immediatelyPreceding_eq_none_iff l cur, ?_⟩
  · unfold getSpendingTrend
    by_cases hlen : (sortedKeys l).length < 2
    · rw [if_pos hlen]
      simp [hlen]
    · rw [if_neg hlen]
      cases hidx : (sortedKeys l).indexOf? cur with
      | none =>
        have himm : immediatelyPreceding l cur = none := by
          unfold immediatelyPreceding
          rw [hidx]
        simp [himm]
      | some n =>
        cases n with
        | zero =>
          have himm : immediatelyPreceding l cur = none := by
            unfold immediatelyPreceding
            rw [hidx]
          simp [himm]
        | succ i =>
          have hlt : i + 1 < (sortedKeys l).length := indexOf?_lt_length hidx
          have hi : i < (sortedKeys l).length := by omega
          have hget : (sortedKeys l).get? i = some ((sortedKeys l).get ⟨i, hi⟩) :=
            List.get?_eq_get hi
          have himm : immediatelyPreceding l cur
              = some ((sortedKeys l).get ⟨i, hi⟩) := by
            unfold immediatelyPreceding
            rw [hidx]
            exact hget
          dsimp only
          rw [hget]
          dsimp only [Option.getD]
          split_ifs with hz
          · constructor
            · intro _
              right
              right
              exact ⟨(sortedKeys l).get ⟨i, hi⟩, himm, hz⟩
            · intro _
              rfl
          · constructor
            · intro h
              cases h
            · intro hr
              rcases hr with h | h | ⟨pk₂, hpk₂, hz₂⟩
              · exact absurd h hlen
              · rw [himm] at h
                cases h
              · rw [himm] at hpk₂
                have : (sortedKeys l).get ⟨i, hi⟩ = pk₂ := by
                  injection hpk₂
                rw [← this] at hz₂
                exact absurd hz₂ hz
  · intro t ht
    unfold getSpendingTrend at ht
    by_cases hlen : (sortedKeys l).length < 2
    · rw [if_pos hlen] at ht
      cases ht
    · rw [if_neg hlen] at ht
      cases hidx : (sortedKeys l).indexOf? cur with
      | none =>
        rw [hidx] at ht
        cases ht
      | some n =>
        rw [hidx] at ht
        cases n with
        | zero => cases ht
        | succ i =>
          have hlt : i + 1 < (sortedKeys l).length := indexOf?_lt_length hidx
          have hi : i < (sortedKeys l).length := by omega
          have hget : (sortedKeys l).get? i = some ((sortedKeys l).get ⟨i, hi⟩) :=
            List.get?_eq_get hi
          have himm : immediatelyPreceding l cur
              = some ((sortedKeys l).get ⟨i, hi⟩) := by
            unfold immediatelyPreceding
            rw [hidx]
            exact hget
          dsimp only at ht
          rw [hget] at ht
          dsimp only [Option.getD] at ht
          split_ifs at ht with hz
          injection ht with ht
          subst ht
          exact ⟨(sortedKeys l).get ⟨i, hi⟩, himm, rfl, rfl, hz, rfl, rfl⟩

def c7m1 : MonthData :=
  { income := 0, incomeRecurring := false,
    expenses := [{ id := 1, name := "Groceries", amount := 500,
                   category := "food", isRecurring := false }],
    categoryLimits := [] }

def c7m2 : MonthData :=
  { income := 0, incomeRecurring := false,
    expenses := [{ id := 2, name := "Groceries", amount := 800,
                   category := "food", isRecurring := false }],
    categoryLimits := [] }

/-- Two known months with expenses 500 then 800. -/
def c7Ledger : Ledger := [("2025-01", c7m1), ("2025-02", c7m2)]

/-- C7 counterexample: with the current key `2025-03` absent from the known
months, two known months exist, `2025-03` is not the chronologically
earliest known month, and the most recent known month before it
(`2025-02`) has nonzero expenses — so the claim as stated requires a
non-null trend — yet the code returns null (its `indexOf` is -1). -/
theorem C7_counterexample :
    getSpendingTrend c7Ledger "2025-03" = none ∧
    ¬ (sortedKeys c7Ledger).length < 2 ∧
    (sortedKeys c7Ledger).head? = some "2025-01" ∧
    ("2025-03" : String) ≠ "2025-01" ∧
    findPreviousMonth c7Ledger "2025-03" = some "2025-02" ∧
    monthExpensesTotal (getMonthData c7Ledger "2025-02") ≠ 0 := by
  refine ⟨rfl, by decide, rfl, by decide, rfl, ?_⟩
  rw [show getMonthData c7Ledger "2025-02" = c7m2 from rfl]
  norm_num [monthExpensesTotal, c7m2]

/-- C7 witness: months with expenses 500 then 800 give a trend with
`changePercent = 60` and `isIncrease = true`, and the preceding known month
is reported correctly. -/
theorem C7_trend_amended_witness :
    getSpendingTrend c7Ledger "2025-02" =
      some { current := 800, previous := 500, change := 60, isUp := true } ∧
    ∃ pk, immediatelyPreceding c7Ledger "2025-02" = some pk ∧
      monthExpensesTotal (getMonthData c7Ledger pk) = 500 := by
  have htot1 : monthExpensesTotal (getMonthData c7Ledger "2025-01") = 500 := by
    rw [show getMonthData c7Ledger "2025-01" = c7m1 from rfl]
    norm_num [monthExpensesTotal, c7m1]
  have htot2 : monthExpensesTotal (getMonthData c7Ledger "2025-02") = 800 := by
    rw [show getMonthData c7Ledger "2025-02" = c7m2 from rfl]
    norm_num [monthExpensesTotal, c7m2]
  have htrend : getSpendingTrend c7Ledger "2025-02" =
      some { current := 800, previous := 500, change := 60, isUp := true } := by
    unfold getSpendingTrend
    dsimp only
    rw [show sortedKeys c7Ledger = ["2025-01", "2025-02"] from rfl]
    rw [if_neg (by norm_num)]
    rw [show (["2025-01", "2025-02"] : List String).indexOf? "2025-02"
        = some 1 from rfl]
    dsimp only
    rw [show ((["2025-01", "2025-02"] : List String).get? 0).getD "" = "2025-01"
        from rfl]
    rw [htot1, htot2]
    rw [if_neg (by norm_num : ¬ (500 : ℚ) = 0)]
    have hch : ((800 : ℚ) - 500) / 500 * 100 = 60 := by norm_num
    rw [hch]
    rw [show decide ((0 : ℚ) < 60) = true from decide_eq_true (by norm_num)]
  refine ⟨htrend, ?_⟩
  obtain ⟨pk, hpk, _, hprev, _, _, _⟩ :=
    (C7_trend_amended c7Ledger "2025-02").2.2 _ htrend
  exact ⟨pk, hpk, by rw [← hprev]⟩

/-! ## Category breakdown lemmas -/

theorem categoryTotal_nonneg (l : Ledger)
    (hnn : ∀ e ∈ allExpenses l, 0 ≤ e.amount) (cid : String) :
    0 ≤ categoryTotal l cid := by
  unfold categoryTotal
  apply List.sum_nonneg
  intro x hx
  obtain ⟨e, he, rfl⟩ := List.mem_map.mp hx
  exact hnn e (List.mem_of_mem_filter he)

theorem sum_filter_amounts_le (es : List Expense) (p : Expense → Bool)
    (h : ∀ e ∈ es, 0 ≤ e.amount) :
    ((es.filter p).map (fun e => e.amount)).sum
      ≤ (es.map (fun e => e.amount)).sum := by
  induction es with
  | nil => simp
  | cons e rest ih =>
    have he : 0 ≤ e.amount := h e (List.mem_cons_self e rest)
    have hr := ih (fun x hx => h x (List.mem_cons_of_mem e hx))
    rw [List.filter_cons]
    by_cases hp : p e = true
    · rw [if_pos hp]
      simp only [List.map_cons, List.sum_cons]
      linarith
    · rw [if_neg hp]
      simp only [List.map_cons, List.sum_cons]
      linarith

theorem categoryTotal_le_totalSpending (l : Ledger)
    (hnn : ∀ e ∈ allExpenses l, 0 ≤ e.amount) (cid : String) :
    categoryTotal l cid ≤ totalSpending l :=
  sum_filter_amounts_le (allExpenses l) _ hnn

theorem sum_map_filter_eq {α : Type} (p : α → Bool) (f : α → ℚ) (xs : List α)
    (h : ∀ x ∈ xs, p x = false → f x = 0) :
    ((xs.filter p).map f).sum = (xs.map f).sum := by
  induction xs with
  | nil => simp
  | cons x rest ih =>
    have hr := ih (fun y hy => h y (List.mem_cons_of_mem x hy))
    rw [List.filter_cons]
    by_cases hp : p x = true
    · rw [if_pos hp]
      simp only [List.map_cons, List.sum_cons, hr]
    · rw [if_neg hp]
      rw [hr]
      simp only [List.map_cons, List.sum_cons]
      rw [h x (List.mem_cons_self x rest) (by simpa using hp)]
      ring

theorem sum_map_add {α : Type} (xs : List α) (g h : α → ℚ) :
    (xs.map (fun c => g c + h c)).sum = (xs.map g).sum + (xs.map h).sum := by
  induction xs with
  | nil => simp
  | cons c rest ih =>
    simp only [List.map_cons, List.sum_cons, ih]
    ring

theorem sum_if_not_mem (ids : List String) (x : String) (a : ℚ)
    (hx : x ∉ ids) :
    (ids.map (fun cid => if x = cid then a else 0)).sum = 0 := by
  induction ids with
  | nil => rfl
  | cons c rest ih =>
    have hxc : ¬ x = c := fun hh => hx (hh ▸ List.mem_cons_self c rest)
    have hxr : x ∉ rest := fun hh => hx (List.mem_cons_of_mem c hh)
    simp only [List.map_cons, List.sum_cons, if_neg hxc, ih hxr]
    ring

theorem sum_if_indicator (ids : List String) (x : String) (a : ℚ)
    (hnd : ids.Nodup) (hx : x ∈ ids) :
    (ids.map (fun cid => if x = cid then a else 0)).sum = a := by
  induction ids with
  | nil => cases hx
  | cons c rest ih =>
    rcases List.mem_cons.mp hx with hxc | hxr
    · have hxrest : x ∉ rest := by
        rw [hxc]
        exact (List.nodup_cons.mp hnd).1
      simp only [List.map_cons, List.sum_cons, if_pos hxc,
        sum_if_not_mem rest x a hxrest]
      ring
    · have hxc : ¬ x = c := by
        intro hh
        rw [hh] at hxr
        exact (List.nodup_cons.mp hnd).1 hxr
      simp only [List.map_cons, List.sum_cons, if_neg hxc,
        ih (List.nodup_cons.mp hnd).2 hxr]
      ring

theorem sum_per_category (ids : List String) (hnd : ids.Nodup)
    (es : List Expense) (hval : ∀ e ∈ es, e.category ∈ ids) :
    (ids.map (fun cid =>
      ((es.filter (fun e => decide (e.category = cid))).map
        (fun e => e.amount)).sum)).sum
      = (es.map (fun e => e.amount)).sum := by
  induction es with
  | nil => simp
  | cons e rest ih =>
    have hrest := ih (fun x hx => hval x (List.mem_cons_of_mem e hx))
    have hstep : ∀ cid : String,
        (((e :: rest).filter (fun x => decide (x.category = cid))).map
          (fun x => x.amount)).sum
          = (if e.category = cid then e.amount else 0) +
            ((rest.filter (fun x => decide (x.category = cid))).map
              (fun x => x.amount)).sum := by
      intro cid
      rw [List.filter_cons]
      by_cases hc : e.category = cid
      · rw [if_pos (by simp [hc]), if_pos hc]
        simp
      · rw [if_neg (by simp [hc]), if_neg hc]
        ring
    rw [List.map_congr_left (fun cid _ => hstep cid), sum_map_add,
      sum_if_indicator ids e.category e.amount hnd
        (hval e (List.mem_cons_self e rest)), hrest]
    simp

theorem sum_categoryTotal (l : Ledger)
    (hval : ∀ e ∈ allExpenses l, e.category ∈ categories.map (fun c => c.id)) :
    (categories.map (fun c => categoryTotal l c.id)).sum = totalSpending l := by
  have h := sum_per_category (categories.map (fun c => c.id)) (by decide)
    (allExpenses l) hval
  unfold categoryTotal totalSpending
  rw [← h, List.map_map]
  rfl

/-- C5: the category breakdown sums expense amounts per category across all
months; it contains exactly the categories with positive total; every entry
carries `percentage = 100 * total / totalSpending`; the list is sorted
descending by total; and when at least one category has spending the
percentages sum to exactly 100.  (Hypotheses: every expense references a
registered category and amounts are non-negative, the data-model
invariants.) -/
theorem C5_category_breakdown (l : Ledger)
    (hval : ∀ e ∈ allExpenses l, e.category ∈ categories.map (fun c => c.id))
    (hnn : ∀ e ∈ allExpenses l, 0 ≤ e.amount) :
    (∀ b ∈ getCategoryBreakdown l,
      0 < b.total ∧ b.total = categoryTotal l b.id ∧
      b.percentage = 100 * b.total / totalSpending l) ∧
    (∀ c ∈ categories, 0 < categoryTotal l c.id →
      ∃ b ∈ getCategoryBreakdown l, b.id = c.id) ∧
    List.Pairwise (fun a b => b.total ≤ a.total) (getCategoryBreakdown l) ∧
    ((∃ c ∈ categories, 0 < categoryTotal l c.id) →
      ((getCategoryBreakdown l).map (fun b => b.percentage)).sum = 100) := by
  have hmem_iff : ∀ b, b ∈ getCategoryBreakdown l ↔
      b ∈ (categories.map (breakdownEntry l)).filter
        (fun entry => decide (0 < entry.total)) := by
    intro b
    unfold getCategoryBreakdown
    exact (perm_sortBy _ _).mem_iff
  refine ⟨?_, ?_, ?_, ?_⟩
  · intro b hb
    obtain ⟨hmem, hposd⟩ := List.mem_filter.mp ((hmem_iff b).mp hb)
    obtain ⟨c, hc, rfl⟩ := List.mem_map.mp hmem
    have hpos : 0 < (breakdownEntry l c).total := of_decide_eq_true hposd
    refine ⟨hpos, rfl, ?_⟩
    have hTpos : 0 < totalSpending l :=
      lt_of_lt_of_le hpos (categoryTotal_le_totalSpending l hnn c.id)
    have hp : (breakdownEntry l c).percentage =
        if 0 < totalSpending l then
          categoryTotal l c.id / totalSpending l * 100
        else 0 := rfl
    rw [hp, if_pos hTpos]
    show categoryTotal l c.id / totalSpending l * 100
      = 100 * (breakdownEntry l c).total / totalSpending l
    rw [show (breakdownEntry l c).total = categoryTotal l c.id from rfl]
    ring
  · intro c hc hpos
    refine ⟨breakdownEntry l c, ?_, rfl⟩
    apply (hmem_iff _).mpr
    apply List.mem_filter.mpr
    refine ⟨List.mem_map_of_mem _ hc, ?_⟩
    exact decide_eq_true hpos
  · unfold getCategoryBreakdown
    have hp := @pairwise_sortBy BreakdownEntry
      (fun a b : BreakdownEntry => decide (b.total ≤ a.total))
      (fun a b => by
        rcases le_total b.total a.total with h | h
        · exact Or.inl (decide_eq_true h)
        · exact Or.inr (decide_eq_true h))
      (fun a b c hab hbc => decide_eq_true
        (le_trans (of_decide_eq_true hbc) (of_decide_eq_true hab)))
      ((categories.map (breakdownEntry l)).filter
        (fun entry => decide (0 < entry.total)))
    exact hp.imp (fun hab => of_decide_eq_true hab)
  · intro hex
    obtain ⟨c₀, hc₀, hpos₀⟩ := hex
    have hTpos : 0 < totalSpending l :=
      lt_of_lt_of_le hpos₀ (categoryTotal_le_totalSpending l hnn c₀.id)
    have hTne : totalSpending l ≠ 0 := ne_of_gt hTpos
    have h1 : ((getCategoryBreakdown l).map (fun b => b.percentage)).sum
        = (((categories.map (breakdownEntry l)).filter
            (fun entry => decide (0 < entry.total))).map
              (fun b => b.percentage)).sum := by
      unfold getCategoryBreakdown
      exact ((perm_sortBy _ _).map _).sum_eq
    have h2 : (((categories.map (breakdownEntry l)).filter
          (fun entry => decide (0 < entry.total))).map
            (fun b => b.percentage)).sum
        = ((categories.map (breakdownEntry l)).map
            (fun b => b.percentage)).sum := by
      apply sum_map_filter_eq
      intro b hb hpred
      obtain ⟨c, hc, rfl⟩ := List.mem_map.mp hb
      have hnotpos : ¬ 0 < (breakdownEntry l c).total := by
        intro hcon
        rw [decide_eq_true hcon] at hpred
        cases hpred
      have hge := categoryTotal_nonneg l hnn c.id
      have htot0 : categoryTotal l c.id = 0 := by
        have hle : (breakdownEntry l c).total ≤ 0 := not_lt.mp hnotpos
        rw [show (breakdownEntry l c).total = categoryTotal l c.id from rfl] at hle
        linarith
      show (breakdownEntry l c).percentage = 0
      have hp : (breakdownEntry l c).percentage =
          if 0 < totalSpending l then
            categoryTotal l c.id / totalSpending l * 100
          else 0 := rfl
      rw [hp, if_pos hTpos, htot0]
      norm_num
    have h3 : ((categories.map (breakdownEntry l)).map
          (fun b => b.percentage)).sum
        = (categories.map
            (fun c => categoryTotal l c.id * (100 / totalSpending l))).sum := by
      rw [List.map_map]
      apply congrArg
      apply List.map_congr_left
      intro c hc
      show (breakdownEntry l c).percentage
        = categoryTotal l c.id * (100 / totalSpending l)
      have hp : (breakdownEntry l c).percentage =
          if 0 < totalSpending l then
            categoryTotal l c.id / totalSpending l * 100
          else 0 := rfl
      rw [hp, if_pos hTpos]
      ring
    rw [h1, h2, h3, List.sum_map_mul_right, sum_categoryTotal l hval]
    field_simp

/-- One month with 300 of food and 100 of housing spending. -/
def c5Ledger : Ledger :=
  [("2025-01",
    { income := 0, incomeRecurring := false,
      expenses :=
        [{ id := 1, name := "Pizza", amount := 300, category := "food",
           isRecurring := false },
         { id := 2, name := "Rent", amount := 100, category := "housing",
           isRecurring := false }],
      categoryLimits := [] })]

/-- C5 witness: with spending present, the breakdown percentages sum to
exactly 100. -/
theorem C5_category_breakdown_witness :
    ((getCategoryBreakdown c5Ledger).map (fun b => b.percentage)).sum = 100 := by
  have hval : ∀ e ∈ allExpenses c5Ledger,
      e.category ∈ categories.map (fun c => c.id) := by decide
  have hnn : ∀ e ∈ allExpenses c5Ledger, 0 ≤ e.amount := by
    intro e he
    simp only [allExpenses, c5Ledger, List.flatMap_cons, List.flatMap_nil,
      List.append_nil, List.mem_cons, List.not_mem_nil, or_false] at he
    rcases he with rfl | rfl <;> norm_num
  have hfood : 0 < categoryTotal c5Ledger "food" := by
    have hne : ("housing" : String) ≠ "food" := by decide
    norm_num [categoryTotal, allExpenses, c5Ledger, List.filter_cons, hne]
  exact (C5_category_breakdown c5Ledger hval hnn).2.2.2
    ⟨{ id := "food", name := "Food", color := "#ff6b9d" }, by decide, hfood⟩

/-! ## Alert deduplication lemmas -/

/-- The session key `"month-category"` of a notification pair. -/
def alertKey (p : String × String) : String := p.1 ++ "-" ++ p.2

theorem alertStep_shown_superset (cur : String) (stale : List String)
    (es : List CategoryTotalsEntry) :
    ∀ (shown : List String), ∀ x ∈ shown, x ∈ (alertStep cur stale es shown).1 := by
  induction es with
  | nil =>
    intro shown x hx
    exact hx
  | cons e rest ih =>
    intro shown x hx
    unfold alertStep
    dsimp only
    by_cases hc : (e.isOverLimit && !(decide ((cur ++ "-" ++ e.id) ∈ stale))) = true
    · rw [if_pos hc]
      exact ih ((cur ++ "-" ++ e.id) :: shown) x (List.mem_cons_of_mem _ hx)
    · rw [if_neg hc]
      exact ih shown x hx

theorem alertStep_sound (cur : String) (stale : List String)
    (es : List CategoryTotalsEntry) :
    ∀ (shown : List String), ∀ p ∈ (alertStep cur stale es shown).2,
      p.1 = cur ∧ (∃ e ∈ es, e.id = p.2 ∧ e.isOverLimit = true) ∧
      (cur ++ "-" ++ p.2) ∉ stale := by
  induction es with
  | nil =>
    intro shown p hp
    cases hp
  | cons e rest ih =>
    intro shown p hp
    unfold alertStep at hp
    dsimp only at hp
    by_cases hc : (e.isOverLimit && !(decide ((cur ++ "-" ++ e.id) ∈ stale))) = true
    · rw [if_pos hc] at hp
      rcases List.mem_cons.mp hp with hph | hpt
      · subst hph
        rw [Bool.and_eq_true] at hc
        have hover : e.isOverLimit = true := hc.1
        have hnot : (cur ++ "-" ++ e.id) ∉ stale := by
          have h2 := hc.2
          simp only [Bool.not_eq_true'] at h2
          exact of_decide_eq_false h2
        exact ⟨rfl, ⟨e, List.mem_cons_self e rest, rfl, hover⟩, hnot⟩
      · obtain ⟨h1, ⟨e₂, he₂, h2, h3⟩, h4⟩ :=
          ih ((cur ++ "-" ++ e.id) :: shown) p hpt
        exact ⟨h1, ⟨e₂, List.mem_cons_of_mem e he₂, h2, h3⟩, h4⟩
    · rw [if_neg hc] at hp
      obtain ⟨h1, ⟨e₂, he₂, h2, h3⟩, h4⟩ := ih shown p hp
      exact ⟨h1, ⟨e₂, List.mem_cons_of_mem e he₂, h2, h3⟩, h4⟩

theorem alertStep_emitted_key_mem (cur : String) (stale : List String)
    (es : List CategoryTotalsEntry) :
    ∀ (shown : List String), ∀ p ∈ (alertStep cur stale es shown).2,
      (cur ++ "-" ++ p.2) ∈ (alertStep cur stale es shown).1 := by
  induction es with
  | nil =>
    intro shown p hp
    cases hp
  | cons e rest ih =>
    intro shown p hp
    unfold alertStep at hp ⊢
    dsimp only at hp ⊢
    by_cases hc : (e.isOverLimit && !(decide ((cur ++ "-" ++ e.id) ∈ stale))) = true
    · rw [if_pos hc] at hp ⊢
      rcases List.mem_cons.mp hp with hph | hpt
      · subst hph
        exact alertStep_shown_superset cur stale rest _ _
          (List.mem_cons_self _ _)
      · exact ih ((cur ++ "-" ++ e.id) :: shown) p hpt
    · rw [if_neg hc] at hp ⊢
      exact ih shown p hp

theorem alertStep_count_le (cur : String) (stale : List String)
    (es : List CategoryTotalsEntry) (p : String × String) :
    ∀ (shown : List String),
      List.count p (alertStep cur stale es shown).2
        ≤ List.count p.2 (es.map (fun e => e.id)) := by
  induction es with
  | nil =>
    intro shown
    simp [alertStep]
  | cons e rest ih =>
    intro shown
    unfold alertStep
    dsimp only
    simp only [List.map_cons]
    by_cases hc : (e.isOverLimit && !(decide ((cur ++ "-" ++ e.id) ∈ stale))) = true
    · rw [if_pos hc]
      have hih := ih ((cur ++ "-" ++ e.id) :: shown)
      by_cases hpe : ((cur, e.id) : String × String) = p
      · rw [hpe, List.count_cons_self]
        have hids : List.count p.2 (e.id :: rest.map (fun e => e.id))
            = List.count p.2 (rest.map (fun e => e.id)) + 1 := by
          have hsnd : p.2 = e.id := by
            rw [← hpe]
          rw [hsnd]
          exact List.count_cons_self _ _
        rw [hids]
        omega
      · rw [List.count_cons_of_ne (fun hh => hpe hh.symm)]
        exact le_trans hih (by rw [List.count_cons]; exact Nat.le_add_right _ _)
    · rw [if_neg hc]
      exact le_trans (ih shown) (by rw [List.count_cons]; exact Nat.le_add_right _ _)

theorem alertStep_count_zero_of_not_cur (cur : String) (stale : List String)
    (es : List CategoryTotalsEntry) (shown : List String) (p : String × String)
    (h : p.1 ≠ cur) :
    List.count p (alertStep cur stale es shown).2 = 0 := by
  rw [List.count_eq_zero]
  intro hp
  exact h (alertStep_sound cur stale es shown p hp).1

theorem alertStep_count_zero_of_stale (cur : String) (stale : List String)
    (es : List CategoryTotalsEntry) (shown : List String) (p : String × String)
    (h : (cur ++ "-" ++ p.2) ∈ stale) :
    List.count p (alertStep cur stale es shown).2 = 0 := by
  rw [List.count_eq_zero]
  intro hp
  exact (alertStep_sound cur stale es shown p hp).2.2 h

theorem calculateCategoryTotals_ids_nodup (d : MonthData) :
    ((calculateCategoryTotals d).map (fun e => e.id)).Nodup := by
  unfold calculateCategoryTotals
  have hsub : ((categories.map (categoryEntry d)).filter
        (fun entry => decide (0 < entry.total))).map (fun e => e.id)
      |>.Sublist ((categories.map (categoryEntry d)).map (fun e => e.id)) :=
    (List.filter_sublist _).map _
  apply hsub.nodup
  rw [List.map_map]
  have hcomp : ((fun e : CategoryTotalsEntry => e.id) ∘ categoryEntry d)
      = fun c : Category => c.id := funext (fun c => rfl)
  rw [hcomp]
  decide

theorem autoPopulate_alertsShown (s : AppState) (now : Nat) :
    (autoPopulate s now).alertsShown = s.alertsShown := by
  rcases autoPopulate_shape s now with ⟨_, h⟩ | ⟨b, h⟩ <;> rw [h]

theorem handleAddExpense_alertsShown (s : AppState) (now : Nat) :
    (handleAddExpense s now).alertsShown = s.alertsShown := by
  unfold handleAddExpense
  cases ha : s.newExpense.amount with
  | none => rfl
  | some q =>
    dsimp only
    by_cases hnm : s.newExpense.name = ""
    · rw [if_pos hnm]
    · rw [if_neg hnm]
      rfl

theorem handleSaveEdit_alertsShown (s : AppState) (eid : Nat)
    (d : EditingExpenseData) :
    (handleSaveEdit s eid d).alertsShown = s.alertsShown := by
  unfold handleSaveEdit
  cases ha : d.amount with
  | none => rfl
  | some q =>
    dsimp only
    by_cases hnm : d.name = ""
    · rw [if_pos hnm]
    · rw [if_neg hnm]
      rfl

theorem applyOp_shown_superset (s : AppState) (op : Op) :
    ∀ x ∈ s.alertsShown, x ∈ (applyOp s op).1.alertsShown := by
  cases op with
  | checkLimits =>
    intro x hx
    unfold applyOp checkCategoryLimits
    by_cases hn : s.notificationsEnabled = true
    · rw [if_pos hn]
      dsimp only
      exact alertStep_shown_superset _ _ _ _ x hx
    · rw [if_neg hn]
      exact hx
  | addExpense now =>
    intro x hx
    show x ∈ (handleAddExpense s now).alertsShown
    rw [handleAddExpense_alertsShown]
    exact hx
  | saveEdit eid d =>
    intro x hx
    show x ∈ (handleSaveEdit s eid d).alertsShown
    rw [handleSaveEdit_alertsShown]
    exact hx
  | populate now =>
    intro x hx
    show x ∈ (autoPopulate s now).alertsShown
    rw [autoPopulate_alertsShown]
    exact hx
  | deleteExpense id => exact fun x hx => hx
  | toggleRecurring id => exact fun x hx => hx
  | income v r => exact fun x hx => hx
  | limit cid v => exact fun x hx => hx
  | navigate m => exact fun x hx => hx
  | setNotifications b => exact fun x hx => hx
  | editForm f => exact fun x hx => hx

theorem applyOp_count_zero_of_not_check (s : AppState) (op : Op)
    (p : String × String) (h : op ≠ Op.checkLimits) :
    List.count p (applyOp s op).2 = 0 := by
  cases op with
  | checkLimits => exact absurd rfl h
  | addExpense now => rfl
  | deleteExpense id => rfl
  | toggleRecurring id => rfl
  | saveEdit eid d => rfl
  | income v r => rfl
  | limit cid v => rfl
  | navigate m => rfl
  | populate now => rfl
  | setNotifications b => rfl
  | editForm f => rfl

/-- The remaining notification budget of a pair: 1 until its key enters the
suppression set, 0 afterwards. -/
def suppressionBudget (p : String × String) (s : AppState) : Nat :=
  if alertKey p ∈ s.alertsShown then 0 else 1

theorem suppressionBudget_le_one (p : String × String) (s : AppState) :
    suppressionBudget p s ≤ 1 := by
  unfold suppressionBudget
  split_ifs <;> omega

theorem suppressionBudget_mono (p : String × String) (s s₂ : AppState)
    (h : ∀ x ∈ s.alertsShown, x ∈ s₂.alertsShown) :
    suppressionBudget p s₂ ≤ suppressionBudget p s := by
  unfold suppressionBudget
  by_cases hm : alertKey p ∈ s.alertsShown
  · rw [if_pos hm, if_pos (h _ hm)]
  · rw [if_neg hm]
    split_ifs <;> omega

theorem applyOp_count_budget (s : AppState) (op : Op) (p : String × String) :
    List.count p (applyOp s op).2 + suppressionBudget p (applyOp s op).1
      ≤ suppressionBudget p s := by
  by_cases hop : op = Op.checkLimits
  · subst hop
    show List.count p (checkCategoryLimits s).2 +
        suppressionBudget p (checkCategoryLimits s).1 ≤ suppressionBudget p s
    unfold checkCategoryLimits
    by_cases hn : s.notificationsEnabled = true
    · rw [if_pos hn]
      dsimp only
      by_cases hcur : p.1 = s.currentMonth
      · by_cases hmem : alertKey p ∈ s.alertsShown
        · have hz : List.count p
              (alertStep s.currentMonth s.alertsShown
                (calculateCategoryTotals (getCurrentMonthData s))
                s.alertsShown).2 = 0 := by
            apply alertStep_count_zero_of_stale
            rw [show s.currentMonth ++ "-" ++ p.2 = alertKey p by
              rw [alertKey, hcur]]
            exact hmem
          rw [hz]
          have hkeep : alertKey p ∈
              (alertStep s.currentMonth s.alertsShown
                (calculateCategoryTotals (getCurrentMonthData s))
                s.alertsShown).1 :=
            alertStep_shown_superset _ _ _ _ _ hmem
          have h0 : suppressionBudget p s = 0 := if_pos hmem
          have h0₂ : suppressionBudget p
              { s with alertsShown :=
                  (alertStep s.currentMonth s.alertsShown
                    (calculateCategoryTotals (getCurrentMonthData s))
                    s.alertsShown).1 } = 0 := if_pos hkeep
          rw [h0, h0₂]
        · have h1 : suppressionBudget p s = 1 := if_neg hmem
          rw [h1]
          have hcnt : List.count p
              (alertStep s.currentMonth s.alertsShown
                (calculateCategoryTotals (getCurrentMonthData s))
                s.alertsShown).2 ≤ 1 := by
            apply le_trans (alertStep_count_le _ _ _ _ _)
            have hnd := calculateCategoryTotals_ids_nodup (getCurrentMonthData s)
            exact List.nodup_iff_count_le_one.mp hnd p.2
          by_cases hzero : List.count p
              (alertStep s.currentMonth s.alertsShown
                (calculateCategoryTotals (getCurrentMonthData s))
                s.alertsShown).2 = 0
          · rw [hzero]
            simpa using suppressionBudget_le_one p _
          · have hone : 1 ≤ List.count p
                (alertStep s.currentMonth s.alertsShown
                  (calculateCategoryTotals (getCurrentMonthData s))
                  s.alertsShown).2 := by omega
            have hp : p ∈ (alertStep s.currentMonth s.alertsShown
                (calculateCategoryTotals (getCurrentMonthData s))
                s.alertsShown).2 := List.one_le_count_iff.mp hone
            have hkey : alertKey p ∈ (alertStep s.currentMonth s.alertsShown
                (calculateCategoryTotals (getCurrentMonthData s))
                s.alertsShown).1 := by
              have := alertStep_emitted_key_mem _ _ _ _ _ hp
              rw [show s.currentMonth ++ "-" ++ p.2 = alertKey p by
                rw [alertKey, hcur]] at this
              exact this
            have h0₂ : suppressionBudget p
                { s with alertsShown :=
                    (alertStep s.currentMonth s.alertsShown
                      (calculateCategoryTotals (getCurrentMonthData s))
                      s.alertsShown).1 } = 0 := if_pos hkey
            rw [h0₂]
            omega
      · have hz : List.count p
            (alertStep s.currentMonth s.alertsShown
              (calculateCategoryTotals (getCurrentMonthData s))
              s.alertsShown).2 = 0 :=
          alertStep_count_zero_of_not_cur _ _ _ _ _ hcur
        rw [hz]
        simp only [Nat.zero_add]
        apply suppressionBudget_mono
        exact fun x hx => alertStep_shown_superset _ _ _ _ x hx
    · rw [if_neg hn]
      simp only [List.count_nil, Nat.zero_add]
      exact le_refl _
  · rw [applyOp_count_zero_of_not_check s op p hop]
    simp only [Nat.zero_add]
    exact suppressionBudget_mono p s _ (applyOp_shown_superset s op)

theorem runOps_count_budget (p : String × String) :
    ∀ (ops : List Op) (s : AppState),
      List.count p (runOps s ops).2 ≤ suppressionBudget p s := by
  intro ops
  induction ops with
  | nil =>
    intro s
    simp [runOps]
  | cons op rest ih =>
    intro s
    show List.count p (runOps s (op :: rest)).2 ≤ suppressionBudget p s
    unfold runOps
    dsimp only
    rw [List.count_append]
    have h1 := applyOp_count_budget s op p
    have h2 := ih (applyOp s op).1
    omega

/-- C9: within a session, (i) a notification fires only for an over-limit
category of the current month whose `"month-category"` key is not yet in
the suppression set, and the key is added by the firing call; (ii) along
any trace of operations starting with an empty suppression set, at most one
notification is ever emitted per (month, category) pair — even if spending
drops below and then exceeds the limit again; (iii) the persisted data is
the ledger only, independent of the suppression set. -/
theorem C9_one_alert_per_pair :
    (∀ (s : AppState), ∀ p ∈ (checkCategoryLimits s).2,
      p.1 = s.currentMonth ∧
      (∃ e ∈ calculateCategoryTotals (getCurrentMonthData s),
        e.id = p.2 ∧ e.isOverLimit = true) ∧
      alertKey p ∉ s.alertsShown ∧
      alertKey p ∈ (checkCategoryLimits s).1.alertsShown) ∧
    (∀ (s : AppState) (ops : List Op) (p : String × String),
      s.alertsShown = [] → List.count p (runOps s ops).2 ≤ 1) ∧
    (∀ (s : AppState) (a : List String),
      persistedData { s with alertsShown := a } = persistedData s) := by
  refine ⟨?_, ?_, ?_⟩
  · intro s p hp
    unfold checkCategoryLimits at hp ⊢
    by_cases hn : s.notificationsEnabled = true
    · rw [if_pos hn] at hp ⊢
      dsimp only at hp ⊢
      obtain ⟨hcur, hex, hnot⟩ := alertStep_sound _ _ _ _ p hp
      have hkey := alertStep_emitted_key_mem _ _ _ _ p hp
      refine ⟨hcur, hex, ?_, ?_⟩
      · rw [show alertKey p = s.currentMonth ++ "-" ++ p.2 by
          rw [alertKey, hcur]]
        exact hnot
      · rw [show alertKey p = s.currentMonth ++ "-" ++ p.2 by
          rw [alertKey, hcur]]
        exact hkey
    · rw [if_neg hn] at hp
      cases hp
  · intro s ops p hempty
    have h := runOps_count_budget p ops s
    have hb : suppressionBudget p s = 1 := by
      unfold suppressionBudget
      rw [hempty]
      rfl
    rw [hb] at h
    exact h
  · intro s a
    rfl

/-- Session state for the C9 witness: notifications on, one over-limit
category, nothing fired yet. -/
def c9State : AppState :=
  { monthlyBudgets := [("2025-01", c8Month)],
    currentMonth := "2025-01",
    newExpense := { name := "", amount := none, category := "food",
                    isRecurring := false },
    populatedMonths := [], alertsShown := [], notificationsEnabled := true }

/-- C9 witness: running two limit checks in one session emits at most one
notification for (2025-01, housing). -/
theorem C9_one_alert_per_pair_witness :
    List.count ("2025-01", "housing")
      (runOps c9State [Op.checkLimits, Op.checkLimits]).2 ≤ 1 :=
  C9_one_alert_per_pair.2.1 c9State [Op.checkLimits, Op.checkLimits]
    ("2025-01", "housing") rfl

/-- Session state for the C2 witness: one recurring month, an unseen next
month. -/
def c2State : AppState :=
  { monthlyBudgets :=
      [("2025-03",
        { income := 100, incomeRecurring := true,
          expenses := [{ id := 3, name := "Sub", amount := 5,
                         category := "other", isRecurring := true }],
          categoryLimits := [] })],
    currentMonth := "2025-04",
    newExpense := { name := "", amount := none, category := "food",
                    isRecurring := false },
    populatedMonths := [], alertsShown := [], notificationsEnabled := false }

/-- C2 witness: after one propagation pass and a deletion re-emptying the
month, a second pass changes nothing. -/
theorem C2_propagation_at_most_once_witness :
    autoPopulate (List.foldl handleDeleteExpense (autoPopulate c2State 50) [53]) 60
      = List.foldl handleDeleteExpense (autoPopulate c2State 50) [53] :=
  (C2_propagation_at_most_once c2State 50 60 [53]).1

end SpaceBudget
